import Mathlib

/-!
# Reply path of the batch client library (`src/lib/Libifl/int_rdrpy.c`)

A shallow embedding of `PBSD_rdrpy_sock`, `PBSD_rdrpy` and `PBSD_FreeReply`.

* Pointers are natural numbers, `0` is `NULL`.
* The C heap is a finite association list from addresses to blocks.  `free`
  of a non-null address that is not allocated is undefined behaviour and is
  rendered as `none`, as is every read through a dangling or ill-typed pointer.
* Calls that leave the translation unit (`free`, `malloc`, `strdup`,
  `DIS_tcp_setup`, `decode_DIS_replyCmd`, `DIS_tcp_reset`) append an event to
  a trace, so that allocation accounting can be read off the final state.
* `while` loops take a fuel argument; running out of fuel yields `none`.
-/

namespace PBS

/-! ## Data model -/

/-- Modelled from the spec: `struct attrl` is declared in a header that is not
part of the sources.  An attribute node links to the next node and owns three
independently nullable strings. -/
structure attrl where
  next : Nat
  name : Nat
  resource : Nat
  value : Nat
deriving DecidableEq, Repr

/-- Modelled from the spec: `struct brp_select` is declared in a header that is
not part of the sources.  A selection node of a singly linked list. -/
structure brp_select where
  brp_next : Nat
deriving DecidableEq, Repr

/-- Modelled from the spec: `struct brp_cmdstat` is declared in a header that
is not part of the sources.  A status node links to the next status node and
owns a list of attribute nodes. -/
structure brp_cmdstat where
  brp_stlink : Nat
  brp_attrl : Nat
deriving DecidableEq, Repr

/-- Modelled from the spec: `struct batch_reply` is declared in a header that
is not part of the sources.  The arms of the union `brp_un` are kept as
separate fields; the code only ever reads the arm selected by `brp_choice`. -/
structure batch_reply where
  brp_code : Int
  brp_choice : Int
  brp_txtlen : Nat
  brp_str : Nat
  brp_select : Nat
  brp_statc : Nat
  brq_avail : Nat
  brq_alloc : Nat
  brq_resvd : Nat
  brq_down : Nat
deriving DecidableEq, Repr

/-- Modelled from the spec: `struct connect_handle` (a slot of the global
`connection` table) is declared in a header that is not part of the sources.
A slot holds a live session or is free (`ch_inuse`); the code of this file
reads and writes the other three fields only. -/
structure connect_handle where
  ch_inuse : Bool
  ch_socket : Int
  ch_errno : Int
  ch_errtxt : Nat
deriving DecidableEq, Repr

/-- The contents of one allocated block. -/
inductive Cell where
  | uninit
  | reply (r : batch_reply)
  | select (s : brp_select)
  | cmdstat (s : brp_cmdstat)
  | attr (a : attrl)
  | str (s : String)
  | ints (a : List Int)
deriving DecidableEq, Repr

/-- The heap: allocated addresses with their contents. -/
abbrev Heap := List (Nat × Cell)

/-- Contents of the block at address `p`, if allocated. -/
def Heap.get : Heap → Nat → Option Cell
  | [], _ => none
  | (q, c) :: h, p => if q = p then some c else Heap.get h p

/-- Remove the block at address `p`. -/
def Heap.del (h : Heap) (p : Nat) : Heap :=
  h.filter (fun e => decide (e.1 ≠ p))

/-- Store `c` at address `p`. -/
def Heap.set (h : Heap) (p : Nat) (c : Cell) : Heap :=
  (p, c) :: h.del p

/-- An address that is neither null nor allocated. -/
def Heap.fresh (h : Heap) : Nat :=
  (h.map (fun e => e.1)).foldr max 0 + 1

/-- Calls that leave the translation unit. -/
inductive Event where
  | free (p : Nat)
  | malloc (p : Nat)
  | strdup (p : Nat)
  | DIS_tcp_setup (sock : Int)
  | decode_DIS_replyCmd (sock : Int) (reply : Nat)
  | DIS_tcp_reset (sock : Int)
deriving DecidableEq, Repr

/-- Process state seen by the reply path. `avail` lists the outcomes of the
coming allocation requests (`true`: the request is served); a request made
when the list is exhausted fails. -/
structure World where
  heap : Heap
  trace : List Event
  pbs_errno : Int
  pbs_tcp_timeout : Int
  connection : List connect_handle
  avail : List Bool
deriving DecidableEq, Repr

/-- Constants and tables from headers that are not part of the sources. -/
structure Consts where
  DIS_SUCCESS : Int
  PBSE_SYSTEM : Int
  PBSE_PROTOCOL : Int
  PBS_DIS_TCP_TIMEOUT_LONG : Int
  BATCH_REPLY_CHOICE_Select : Int
  BATCH_REPLY_CHOICE_Status : Int
  BATCH_REPLY_CHOICE_Text : Int
  BATCH_REPLY_CHOICE_RescQuery : Int
  dis_emsg : List String

/-- The four discriminants tested by the code are different numbers. -/
def Consts.distinct (K : Consts) : Prop :=
  K.BATCH_REPLY_CHOICE_Text ≠ K.BATCH_REPLY_CHOICE_Select ∧
  K.BATCH_REPLY_CHOICE_Text ≠ K.BATCH_REPLY_CHOICE_Status ∧
  K.BATCH_REPLY_CHOICE_Text ≠ K.BATCH_REPLY_CHOICE_RescQuery ∧
  K.BATCH_REPLY_CHOICE_Select ≠ K.BATCH_REPLY_CHOICE_Status ∧
  K.BATCH_REPLY_CHOICE_Select ≠ K.BATCH_REPLY_CHOICE_RescQuery ∧
  K.BATCH_REPLY_CHOICE_Status ≠ K.BATCH_REPLY_CHOICE_RescQuery

instance (K : Consts) : Decidable K.distinct := by
  unfold Consts.distinct; infer_instance

/-- The external envelope decoder `decode_DIS_replyCmd(sock, reply)`: it may
rewrite the heap (fill the record in place, allocate substructures) and
returns a DIS code. -/
abbrev Decoder := Int → Nat → Heap → Int × Heap

/-! ## libc -/

/-- The call `free(p)`. -/
def free (p : Nat) (w : World) : Option World :=
  if p = 0 then some w
  else
    match w.heap.get p with
    | none => none
    | some _ =>
      some { w with heap := w.heap.del p, trace := w.trace ++ [Event.free p] }

/-- The call `malloc(sizeof(struct batch_reply))`: the address (`0` on failure)
and the new state. -/
def malloc (w : World) : Nat × World :=
  match w.avail with
  | true :: rest =>
    let p := w.heap.fresh
    (p, { w with heap := w.heap.set p Cell.uninit,
                 trace := w.trace ++ [Event.malloc p], avail := rest })
  | _ :: rest => (0, { w with avail := rest })
  | [] => (0, w)

/-- The C string held by a character buffer whose bytes are `s` (and which is
followed by a terminating NUL): the bytes before the first NUL. -/
def c_str (s : String) : String :=
  String.mk (s.data.takeWhile (fun ch => ch != Char.ofNat 0))

/-- The call `strdup(s)` on a buffer whose bytes are `s`: the copy holds the C
string, which ends at the first NUL. -/
def strdup (s : String) (w : World) : Nat × World :=
  match w.avail with
  | true :: rest =>
    let p := w.heap.fresh
    (p, { w with heap := w.heap.set p (Cell.str (c_str s)),
                 trace := w.trace ++ [Event.strdup p], avail := rest })
  | _ :: rest => (0, { w with avail := rest })
  | [] => (0, w)

/-- The all-zero record left by `memset(reply, 0, sizeof(struct batch_reply))`. -/
def batch_reply.zero : batch_reply :=
  { brp_code := 0, brp_choice := 0, brp_txtlen := 0, brp_str := 0, brp_select := 0,
    brp_statc := 0, brq_avail := 0, brq_alloc := 0, brq_resvd := 0, brq_down := 0 }

/-! ## `PBSD_FreeReply` -/

/-- The loop `while (psel)` over the select list. -/
def free_select_loop : Nat → Nat → World → Option World
  | 0, _, _ => none
  | fuel + 1, psel, w =>
    if psel = 0 then some w
    else
      match w.heap.get psel with
      | some (Cell.select s) =>
        let pselx := s.brp_next
        (free psel w).bind (fun w => free_select_loop fuel pselx w)
      | _ => none

/-- The inner loop `while (pattrl)` over one attribute list. -/
def free_attrl_loop : Nat → Nat → World → Option World
  | 0, _, _ => none
  | fuel + 1, pattrl, w =>
    if pattrl = 0 then some w
    else
      match w.heap.get pattrl with
      | some (Cell.attr a) =>
        let pattrx := a.next
        ((if a.name ≠ 0 then free a.name w else some w).bind fun w =>
         (if a.resource ≠ 0 then free a.resource w else some w).bind fun w =>
         (if a.value ≠ 0 then free a.value w else some w).bind fun w =>
         (free pattrl w).bind fun w =>
         free_attrl_loop fuel pattrx w)
      | _ => none

/-- The outer loop `while (pstc)` over the status list. -/
def free_status_loop : Nat → Nat → World → Option World
  | 0, _, _ => none
  | fuel + 1, pstc, w =>
    if pstc = 0 then some w
    else
      match w.heap.get pstc with
      | some (Cell.cmdstat s) =>
        let pstcx := s.brp_stlink
        let pattrl := s.brp_attrl
        ((free_attrl_loop fuel pattrl w).bind fun w =>
         (free pstc w).bind fun w =>
         free_status_loop fuel pstcx w)
      | _ => none

/-- The function `PBSD_FreeReply(reply)`. -/
def PBSD_FreeReply (K : Consts) (fuel : Nat) (reply : Nat) (w : World) : Option World :=
  if reply = 0 then some w
  else
    match w.heap.get reply with
    | some (Cell.reply r) =>
      (if r.brp_choice = K.BATCH_REPLY_CHOICE_Text then
        if r.brp_str ≠ 0 then
          (free r.brp_str w).map fun w =>
            let r1 : batch_reply := { r with brp_str := 0, brp_txtlen := 0 }
            { w with heap := w.heap.set reply (Cell.reply r1) }
        else some w
      else if r.brp_choice = K.BATCH_REPLY_CHOICE_Select then
        free_select_loop fuel r.brp_select w
      else if r.brp_choice = K.BATCH_REPLY_CHOICE_Status then
        free_status_loop fuel r.brp_statc w
      else if r.brp_choice = K.BATCH_REPLY_CHOICE_RescQuery then
        (free r.brq_avail w).bind fun w =>
        (free r.brq_alloc w).bind fun w =>
        (free r.brq_resvd w).bind fun w =>
        free r.brq_down w
      else some w).bind fun w => free reply w
    | _ => none

/-! ## `PBSD_rdrpy_sock` and `PBSD_rdrpy` -/

/-- The call `memset(reply, 0, sizeof(struct batch_reply))`. -/
def memset_reply (reply : Nat) (w : World) : World :=
  { w with heap := w.heap.set reply (Cell.reply batch_reply.zero) }

/-- The external call `DIS_tcp_setup(sock)`. -/
def DIS_tcp_setup (sock : Int) (w : World) : World :=
  { w with trace := w.trace ++ [Event.DIS_tcp_setup sock] }

/-- The external call `DIS_tcp_reset(sock, 0)`. -/
def DIS_tcp_reset (sock : Int) (w : World) : World :=
  { w with trace := w.trace ++ [Event.DIS_tcp_reset sock] }

/-- The external call `decode_DIS_replyCmd(sock, reply)`: the returned code and
the state it leaves. -/
def decode_DIS_replyCmd (dec : Decoder) (sock : Int) (reply : Nat) (w : World) :
    Int × World :=
  ((dec sock reply w.heap).1,
   { w with heap := (dec sock reply w.heap).2,
            trace := w.trace ++ [Event.decode_DIS_replyCmd sock reply] })

/-- The function `PBSD_rdrpy_sock(sock, &rc)`: the returned pointer, the value
left in `*rc`, and the new state. -/
def PBSD_rdrpy_sock (K : Consts) (dec : Decoder) (sock : Int) (w : World) :
    Option (Nat × Int × World) :=
  let rc := K.DIS_SUCCESS
  let (reply, w) := malloc w
  if reply = 0 then
    some (0, rc, { w with pbs_errno := K.PBSE_SYSTEM })
  else
    let w := memset_reply reply w
    let w := DIS_tcp_setup sock w
    let old_timeout := w.pbs_tcp_timeout
    let w := if w.pbs_tcp_timeout < K.PBS_DIS_TCP_TIMEOUT_LONG then
        { w with pbs_tcp_timeout := K.PBS_DIS_TCP_TIMEOUT_LONG } else w
    let (rc, w) := decode_DIS_replyCmd dec sock reply w
    if rc ≠ 0 then
      (free reply w).map fun w => (0, rc, { w with pbs_errno := K.PBSE_PROTOCOL })
    else
      let w := DIS_tcp_reset sock w
      let w := { w with pbs_tcp_timeout := old_timeout }
      match w.heap.get reply with
      | some (Cell.reply r) => some (reply, rc, { w with pbs_errno := r.brp_code })
      | _ => none

/-- The entry `connection[c]`; indexing outside the table is undefined. -/
def conn (w : World) (c : Int) : Option connect_handle :=
  if 0 ≤ c then w.connection[c.toNat]? else none

/-- The assignment `connection[c].ch_errtxt = p`. -/
def set_ch_errtxt (c : Int) (p : Nat) (w : World) : World :=
  { w with connection :=
      w.connection.modify (fun ch => { ch with ch_errtxt := p }) c.toNat }

/-- The assignment `connection[c].ch_errno = e`. -/
def set_ch_errno (c : Int) (e : Int) (w : World) : World :=
  { w with connection :=
      w.connection.modify (fun ch => { ch with ch_errno := e }) c.toNat }

/-- The entry `dis_emsg[rc]`; indexing outside the table is undefined. -/
def dis_emsg (K : Consts) (rc : Int) : Option String :=
  if 0 ≤ rc then K.dis_emsg[rc.toNat]? else none

/-- The function `PBSD_rdrpy(c)`: the returned pointer and the new state. -/
def PBSD_rdrpy (K : Consts) (dec : Decoder) (c : Int) (w : World) : Option (Nat × World) :=
  (conn w c).bind fun ch =>
  (if ch.ch_errtxt ≠ 0 then
    (free ch.ch_errtxt w).map fun w => set_ch_errtxt c 0 w
  else some w).bind fun w =>
  (conn w c).bind fun ch =>
  let sock := ch.ch_socket
  (PBSD_rdrpy_sock K dec sock w).bind fun (reply, rc, w) =>
  if reply = 0 then
    let w := set_ch_errno c K.PBSE_PROTOCOL w
    (dis_emsg K rc).bind fun msg =>
    let (p, w) := strdup msg w
    let w := set_ch_errtxt c p w
    let w := if p = 0 then { w with pbs_errno := K.PBSE_SYSTEM } else w
    some (0, w)
  else
    match w.heap.get reply with
    | some (Cell.reply r) =>
      let w := set_ch_errno c r.brp_code w
      let w := { w with pbs_errno := r.brp_code }
      if r.brp_choice = K.BATCH_REPLY_CHOICE_Text then
        if r.brp_str ≠ 0 then
          match w.heap.get r.brp_str with
          | some (Cell.str s) =>
            let (p, w) := strdup s w
            let w := set_ch_errtxt c p w
            if p = 0 then
              some (0, { w with pbs_errno := K.PBSE_SYSTEM })
            else some (reply, w)
          | _ => none
        else some (reply, w)
      else some (reply, w)
    | _ => none

/-- Consecutive calls of `PBSD_rdrpy(c)`, one per decoder behaviour in the
list: the state after each call, in order. -/
def PBSD_rdrpy_calls (K : Consts) (c : Int) : List Decoder → World → Option (List World)
  | [], _ => some []
  | dec :: decs, w =>
    (PBSD_rdrpy K dec c w).bind fun r =>
    (PBSD_rdrpy_calls K c decs r.2).map fun ws => r.2 :: ws

/-- One step of the allocation accounting for diagnostic strings. -/
def liveStep (live : List Nat) : Event → List Nat
  | Event.strdup p => live ++ [p]
  | Event.free p => live.filter (fun q => decide (q ≠ p))
  | _ => live

/-- Allocation accounting for diagnostic strings: the addresses handed out by
`strdup` and not passed to `free` since, read off a trace. -/
def liveDiag (t : List Event) : List Nat := t.foldl liveStep []

/-! ## Sample constants and inputs -/

/-- Sample values of the header constants, used for the concrete examples. -/
def Kstd : Consts :=
  { DIS_SUCCESS := 0, PBSE_SYSTEM := 15010, PBSE_PROTOCOL := 15031,
    PBS_DIS_TCP_TIMEOUT_LONG := 600,
    BATCH_REPLY_CHOICE_Select := 5, BATCH_REPLY_CHOICE_Status := 6,
    BATCH_REPLY_CHOICE_Text := 7, BATCH_REPLY_CHOICE_RescQuery := 9,
    dis_emsg := ["No error", "Input value too large to convert to this type",
      "Tried to write floating point infinity", "Negative sign on an unsigned datum",
      "Input count or value has leading zero", "Non-digit found where a digit was expected",
      "Input string has an embedded ASCII NUL", "Premature end of message",
      "Unable to malloc enough space for string", "Supposedly unreachable state",
      "Protocol failure in commit", "End of File"] }

/-- A decoder behaviour: the stream is at end of file, nothing is attached. -/
def decEOF : Decoder := fun _ _ h => (11, h)

/-- A decoder behaviour: a Text reply with the given status code and message. -/
def decText (code : Int) (msg : String) : Decoder := fun _ reply h =>
  let q := h.fresh
  (0, (h.set q (Cell.str msg)).set reply (Cell.reply
    { batch_reply.zero with brp_code := code, brp_choice := 7,
                            brp_txtlen := msg.length, brp_str := q }))

/-- A decoder behaviour: the decoder fails with code 12, one past the last
entry of the sample message table. -/
def decBadCode : Decoder := fun _ _ h => (12, h)

/-- A decoder behaviour: a Select reply announcing two entries whose stream
ends after the first; the first node is linked into the record, then the
decoder returns the end-of-file code. -/
def decSelectTruncated : Decoder := fun _ reply h =>
  let q := h.fresh
  (11, (h.set q (Cell.select { brp_next := 0 })).set reply (Cell.reply
    { batch_reply.zero with brp_choice := 5, brp_select := q }))

/-- A state with one session on socket 3, no diagnostic stored, a short
timeout, and memory for `n` allocations. -/
def world0 (n : Nat) : World :=
  { heap := [], trace := [], pbs_errno := 0, pbs_tcp_timeout := 30,
    connection := [{ ch_inuse := true, ch_socket := 3, ch_errno := 0, ch_errtxt := 0 }],
    avail := List.replicate n true }

/-- A state whose table has two slots: slot 0 holds a live session on socket
3, slot 1 is free (its stale handle is socket 7); memory for `n` allocations. -/
def world2 (n : Nat) : World :=
  { heap := [], trace := [], pbs_errno := 0, pbs_tcp_timeout := 30,
    connection := [{ ch_inuse := true, ch_socket := 3, ch_errno := 0, ch_errtxt := 0 },
                   { ch_inuse := false, ch_socket := 7, ch_errno := 0, ch_errtxt := 0 }],
    avail := List.replicate n true }

/-! ## Well-formed reply structures -/

/-- A pointer as a list of blocks: nothing for `NULL`. -/
def nz (p : Nat) : List Nat := if p = 0 then [] else [p]

/-- The state after the blocks `bs` have been released, in that order. -/
def World.release (w : World) (bs : List Nat) : World :=
  { w with heap := bs.foldl Heap.del w.heap, trace := w.trace ++ bs.map Event.free }

/-- The address `p` heads an acyclic select list whose nodes are `l`. -/
def selChain (h : Heap) : Nat → List (Nat × brp_select) → Prop
  | p, [] => p = 0
  | p, (q, s) :: l =>
    p = q ∧ q ≠ 0 ∧ h.get q = some (Cell.select s) ∧ selChain h s.brp_next l

/-- Blocks of a select list, front to back. -/
def selBlocks (l : List (Nat × brp_select)) : List Nat := l.map (fun e => e.1)

/-- The address `p` heads an acyclic attribute list whose nodes are `l`; every
non-null string of a node is an allocated block. -/
def attrChain (h : Heap) : Nat → List (Nat × attrl) → Prop
  | p, [] => p = 0
  | p, (q, a) :: l =>
    p = q ∧ q ≠ 0 ∧ h.get q = some (Cell.attr a) ∧
    (a.name ≠ 0 → (h.get a.name).isSome) ∧
    (a.resource ≠ 0 → (h.get a.resource).isSome) ∧
    (a.value ≠ 0 → (h.get a.value).isSome) ∧
    attrChain h a.next l

/-- Blocks of an attribute list: per node its strings, then the node. -/
def attrBlocks : List (Nat × attrl) → List Nat
  | [] => []
  | (q, a) :: l => nz a.name ++ nz a.resource ++ nz a.value ++ [q] ++ attrBlocks l

/-- The address `p` heads an acyclic status list whose nodes are `l`, each with
its attribute list. -/
def statChain (h : Heap) : Nat → List (Nat × brp_cmdstat × List (Nat × attrl)) → Prop
  | p, [] => p = 0
  | p, (q, s, al) :: l =>
    p = q ∧ q ≠ 0 ∧ h.get q = some (Cell.cmdstat s) ∧
    attrChain h s.brp_attrl al ∧ statChain h s.brp_stlink l

/-- Blocks of a status list: per node its attribute list, then the node. -/
def statBlocks : List (Nat × brp_cmdstat × List (Nat × attrl)) → List Nat
  | [] => []
  | (q, _, al) :: l => attrBlocks al ++ [q] ++ statBlocks l

/-- Number of loop iterations needed for a status list. -/
def statSize : List (Nat × brp_cmdstat × List (Nat × attrl)) → Nat
  | [] => 0
  | (_, _, al) :: l => al.length + 1 + statSize l

/-- The structure hanging off a reply pointer. -/
inductive Shape where
  | null
  | text (r : batch_reply)
  | select (r : batch_reply) (l : List (Nat × brp_select))
  | status (r : batch_reply) (l : List (Nat × brp_cmdstat × List (Nat × attrl)))
  | rescq (r : batch_reply)

/-- The heap `h` holds at `p` a reply of one of the four variants with the
structure `s` (or `p` is null). -/
def Shape.holds (K : Consts) (h : Heap) (p : Nat) : Shape → Prop
  | Shape.null => p = 0
  | Shape.text r =>
    p ≠ 0 ∧ h.get p = some (Cell.reply r) ∧ r.brp_choice = K.BATCH_REPLY_CHOICE_Text ∧
    (r.brp_str ≠ 0 → (h.get r.brp_str).isSome)
  | Shape.select r l =>
    p ≠ 0 ∧ h.get p = some (Cell.reply r) ∧ r.brp_choice = K.BATCH_REPLY_CHOICE_Select ∧
    selChain h r.brp_select l
  | Shape.status r l =>
    p ≠ 0 ∧ h.get p = some (Cell.reply r) ∧ r.brp_choice = K.BATCH_REPLY_CHOICE_Status ∧
    statChain h r.brp_statc l
  | Shape.rescq r =>
    p ≠ 0 ∧ h.get p = some (Cell.reply r) ∧
    r.brp_choice = K.BATCH_REPLY_CHOICE_RescQuery ∧
    (r.brq_avail ≠ 0 → (h.get r.brq_avail).isSome) ∧
    (r.brq_alloc ≠ 0 → (h.get r.brq_alloc).isSome) ∧
    (r.brq_resvd ≠ 0 → (h.get r.brq_resvd).isSome) ∧
    (r.brq_down ≠ 0 → (h.get r.brq_down).isSome)

/-- Every block reachable from the reply pointer `p`, the record last. -/
def Shape.blocks (p : Nat) : Shape → List Nat
  | Shape.null => []
  | Shape.text r => nz r.brp_str ++ [p]
  | Shape.select _ l => selBlocks l ++ [p]
  | Shape.status _ l => statBlocks l ++ [p]
  | Shape.rescq r =>
    nz r.brq_avail ++ nz r.brq_alloc ++ nz r.brq_resvd ++ nz r.brq_down ++ [p]

/-- Number of list nodes of the structure. -/
def Shape.size : Shape → Nat
  | Shape.select _ l => l.length
  | Shape.status _ l => statSize l
  | _ => 0

/-- A state with one session on socket 3 that still holds the diagnostic of an
earlier failure, and memory for `n` allocations. -/
def world1 (n : Nat) : World :=
  { heap := [(5, Cell.str "End of File")], trace := [Event.strdup 5], pbs_errno := 15031,
    pbs_tcp_timeout := 30,
    connection := [{ ch_inuse := true, ch_socket := 3, ch_errno := 15031, ch_errtxt := 5 }],
    avail := List.replicate n true }

/-- A heap holding a Status reply at address 1: two status nodes, the first
with two attribute nodes (some of their strings null), the second with none. -/
def heapStatus : Heap :=
  [(1, Cell.reply { batch_reply.zero with brp_choice := 6, brp_statc := 2 }),
   (2, Cell.cmdstat { brp_stlink := 3, brp_attrl := 4 }),
   (3, Cell.cmdstat { brp_stlink := 0, brp_attrl := 0 }),
   (4, Cell.attr { next := 5, name := 6, resource := 0, value := 7 }),
   (5, Cell.attr { next := 0, name := 8, resource := 9, value := 0 }),
   (6, Cell.str "state"), (7, Cell.str "R"), (8, Cell.str "queue"), (9, Cell.str "batch"),
   (10, Cell.str "not part of the reply")]

/-- The structure of the reply in `heapStatus`. -/
def shapeStatus : Shape :=
  Shape.status { batch_reply.zero with brp_choice := 6, brp_statc := 2 }
    [(2, { brp_stlink := 3, brp_attrl := 4 },
        [(4, { next := 5, name := 6, resource := 0, value := 7 }),
         (5, { next := 0, name := 8, resource := 9, value := 0 })]),
     (3, { brp_stlink := 0, brp_attrl := 0 }, [])]

/-- The heap handed to the decoder: `h` with the zeroed record at the fresh
address. -/
def recordHeap (h : Heap) : Heap := (h.fresh, Cell.reply batch_reply.zero) :: h

/-- The state in which `PBSD_rdrpy(c)` starts the read: the stored diagnostic
`e` of the entry (if any) released and the field nulled. -/
def World.cleared (w : World) (c : Int) (e : Nat) : World :=
  if e = 0 then w
  else set_ch_errtxt c 0
    { w with heap := w.heap.del e, trace := w.trace ++ [Event.free e] }

/-- The allocator serves the next request. -/
def World.canAlloc (w : World) : Prop := w.avail.head? = some true

instance (w : World) : Decidable w.canAlloc := by
  unfold World.canAlloc; infer_instance

/-- The address of the record `PBSD_rdrpy(c)` allocates for the read. -/
def replyAddr (w : World) (c : Int) (ch : connect_handle) : Nat :=
  (w.cleared c ch.ch_errtxt).heap.fresh

/-- The heap `PBSD_rdrpy(c)` hands to the decoder. -/
def decodeHeap (w : World) (c : Int) (ch : connect_handle) : Heap :=
  recordHeap (w.cleared c ch.ch_errtxt).heap

/-- What it means for `w1` to be `w` with exactly the blocks `bs` released, each
once: the trace grows by one `free` per block, the blocks are gone from the
heap, every other block and every global is untouched. -/
def Released (w w1 : World) (bs : List Nat) : Prop :=
  w1.trace = w.trace ++ bs.map Event.free ∧ bs.Nodup ∧
  (∀ q, w1.heap.get q = if q ∈ bs then none else w.heap.get q) ∧
  w1.pbs_errno = w.pbs_errno ∧ w1.pbs_tcp_timeout = w.pbs_tcp_timeout ∧
  w1.connection = w.connection ∧ w1.avail = w.avail

/-- The state `w` with slot `c` of the table marked as holding a live session
(`b = true`) or as free (`b = false`). -/
def set_ch_inuse (c : Int) (b : Bool) (w : World) : World :=
  { w with connection :=
      w.connection.modify (fun ch => { ch with ch_inuse := b }) c.toNat }

/-- The decoder behaviour `dec` makes any call produce a diagnostic: run on a
freshly zeroed record in any heap, it either fails with a code that indexes
`dis_emsg`, leaving the record block allocated, or succeeds with a Text reply
whose buffer is a non-null string block. -/
def givesDiagnostic (K : Consts) (dec : Decoder) : Prop :=
  ∀ (sock : Int) (h : Heap),
    ((dec sock h.fresh (recordHeap h)).1 ≠ 0 ∧ 0 ≤ (dec sock h.fresh (recordHeap h)).1 ∧
      (dec sock h.fresh (recordHeap h)).1.toNat < K.dis_emsg.length ∧
      ((dec sock h.fresh (recordHeap h)).2.get h.fresh).isSome) ∨
    ((dec sock h.fresh (recordHeap h)).1 = 0 ∧
      ∃ r s, (dec sock h.fresh (recordHeap h)).2.get h.fresh = some (Cell.reply r) ∧
        r.brp_choice = K.BATCH_REPLY_CHOICE_Text ∧ r.brp_str ≠ 0 ∧
        (dec sock h.fresh (recordHeap h)).2.get r.brp_str = some (Cell.str s))

/-! ## Heap lemmas -/

theorem Heap.get_del (h : Heap) (p q : Nat) :
    (h.del p).get q = if q = p then none else h.get q := by
  induction h with
  | nil => simp [Heap.del, Heap.get]
  | cons e h ih =>
    obtain ⟨a, c⟩ := e
    simp only [Heap.del] at ih ⊢
    by_cases hap : a = p
    · subst hap
      simp only [List.filter, ne_eq, not_true_eq_false, decide_False, ih, Heap.get]
      by_cases hq : q = a
      · simp [hq]
      · simp [hq, Ne.symm hq]
    · simp only [List.filter, ne_eq, hap, not_false_eq_true, decide_True, Heap.get, ih]
      by_cases hq : a = q
      · subst hq; simp [hap]
      · simp [hq]

theorem Heap.get_set (h : Heap) (p q : Nat) (c : Cell) :
    (h.set p c).get q = if q = p then some c else h.get q := by
  simp only [Heap.set, Heap.get, Heap.get_del]
  by_cases hq : p = q
  · simp [hq]
  · simp [hq, Ne.symm hq]

theorem Heap.get_foldl_del (bs : List Nat) (h : Heap) (q : Nat) :
    (bs.foldl Heap.del h).get q = if q ∈ bs then none else h.get q := by
  induction bs generalizing h with
  | nil => simp
  | cons b bs ih =>
    simp only [List.foldl_cons, ih, Heap.get_del, List.mem_cons]
    by_cases h1 : q ∈ bs
    · simp [h1]
    · by_cases h2 : q = b <;> simp [h1, h2]

theorem World.release_nil (w : World) : w.release [] = w := by
  simp [World.release]

theorem World.release_append (w : World) (a b : List Nat) :
    (w.release a).release b = w.release (a ++ b) := by
  simp [World.release, List.foldl_append]

theorem World.get_release (w : World) (bs : List Nat) (q : Nat) :
    (w.release bs).heap.get q = if q ∈ bs then none else w.heap.get q := by
  simp [World.release, Heap.get_foldl_del]

/-! ## Releasing blocks one after another -/

theorem free_release (w : World) (ds : List Nat) (p : Nat) (hp : p ≠ 0)
    (hal : (w.heap.get p).isSome) (hd : p ∉ ds) :
    free p (w.release ds) = some (w.release (ds ++ [p])) := by
  have hg : (w.release ds).heap.get p = w.heap.get p := by
    rw [World.get_release]; simp [hd]
  obtain ⟨c, hc⟩ := Option.isSome_iff_exists.mp hal
  unfold free
  rw [if_neg hp, hg, hc]
  simp [World.release, List.foldl_append]

theorem free_release_nz (w : World) (ds : List Nat) (p : Nat)
    (hal : p ≠ 0 → (w.heap.get p).isSome) (hd : p ≠ 0 → p ∉ ds) :
    free p (w.release ds) = some (w.release (ds ++ nz p)) := by
  by_cases hp : p = 0
  · simp [hp, free, nz]
  · rw [free_release w ds p hp (hal hp) (hd hp)]; simp [nz, hp]

theorem free_release_guard (w : World) (ds : List Nat) (p : Nat)
    (hal : p ≠ 0 → (w.heap.get p).isSome) (hd : p ≠ 0 → p ∉ ds) :
    (if p ≠ 0 then free p (w.release ds) else some (w.release ds))
      = some (w.release (ds ++ nz p)) := by
  by_cases hp : p = 0
  · simp [hp, nz]
  · rw [if_pos hp, free_release w ds p hp (hal hp) (hd hp)]; simp [nz, hp]

theorem mem_nz (p : Nat) (hp : p ≠ 0) : p ∈ nz p := by simp [nz, hp]

theorem free_select_loop_release (w : World) :
    ∀ (l : List (Nat × brp_select)) (ds : List Nat) (p fuel : Nat),
      selChain w.heap p l → (ds ++ selBlocks l).Nodup → l.length < fuel →
      free_select_loop fuel p (w.release ds) = some (w.release (ds ++ selBlocks l)) := by
  intro l
  induction l with
  | nil =>
    intro ds p fuel hc _ hf
    obtain ⟨f, rfl⟩ : ∃ f, fuel = f + 1 := ⟨fuel - 1, by simp at hf; omega⟩
    simp only [selChain] at hc
    simp [free_select_loop, hc, selBlocks]
  | cons e l ih =>
    intro ds p fuel hc hnd hf
    obtain ⟨q, s⟩ := e
    obtain ⟨f, rfl⟩ : ∃ f, fuel = f + 1 := ⟨fuel - 1, by simp at hf; omega⟩
    obtain ⟨rfl, hq, hget, hrest⟩ := hc
    have hnd2 : ((ds ++ [p]) ++ selBlocks l).Nodup := by
      simpa [selBlocks, List.append_assoc] using hnd
    have hpd : p ∉ ds := by
      intro hmem
      have := (List.nodup_append.mp hnd).2.2 hmem
      exact this (by simp [selBlocks])
    have hg : (w.release ds).heap.get p = some (Cell.select s) := by
      rw [World.get_release]; simp [hpd, hget]
    unfold free_select_loop
    rw [if_neg hq, hg]
    simp only []
    rw [free_release w ds p hq (by simp [hget]) hpd]
    simp only [Option.bind]
    rw [ih (ds ++ [p]) s.brp_next f hrest hnd2 (by simp at hf; omega)]
    simp [selBlocks, List.append_assoc]

theorem not_mem_left_of_nodup {a b : List Nat} {x : Nat}
    (h : (a ++ b).Nodup) (hx : x ∈ b) : x ∉ a :=
  fun ha => (List.nodup_append.mp h).2.2 ha hx

theorem free_attrl_loop_release (w : World) :
    ∀ (l : List (Nat × attrl)) (ds : List Nat) (p fuel : Nat),
      attrChain w.heap p l → (ds ++ attrBlocks l).Nodup → l.length < fuel →
      free_attrl_loop fuel p (w.release ds) = some (w.release (ds ++ attrBlocks l)) := by
  intro l
  induction l with
  | nil =>
    intro ds p fuel hc _ hf
    obtain ⟨f, rfl⟩ : ∃ f, fuel = f + 1 := ⟨fuel - 1, by simp at hf; omega⟩
    simp only [attrChain] at hc
    simp [free_attrl_loop, hc, attrBlocks]
  | cons e l ih =>
    intro ds p fuel hc hnd hf
    obtain ⟨q, a⟩ := e
    obtain ⟨f, rfl⟩ : ∃ f, fuel = f + 1 := ⟨fuel - 1, by simp at hf; omega⟩
    obtain ⟨rfl, hq, hget, hn, hr, hv, hrest⟩ := hc
    have h4 : (((((ds ++ nz a.name) ++ nz a.resource) ++ nz a.value) ++ [p])
        ++ attrBlocks l).Nodup := by
      simpa [attrBlocks, List.append_assoc] using hnd
    have h3 := h4.of_append_left
    have h2 := h3.of_append_left
    have h1 := h2.of_append_left
    have h0 := h1.of_append_left
    have hpd : p ∉ ds := by
      have := not_mem_left_of_nodup h3 (List.mem_singleton_self p)
      intro hmem; exact this (by simp [hmem])
    have hg : (w.release ds).heap.get p = some (Cell.attr a) := by
      rw [World.get_release]; simp [hpd, hget]
    unfold free_attrl_loop
    rw [if_neg hq, hg]
    simp only []
    rw [free_release_guard w ds a.name hn
      (fun h => not_mem_left_of_nodup h0 (mem_nz _ h))]
    simp only [Option.bind]
    rw [free_release_guard w _ a.resource hr
      (fun h => not_mem_left_of_nodup h1 (mem_nz _ h))]
    simp only [Option.bind]
    rw [free_release_guard w _ a.value hv
      (fun h => not_mem_left_of_nodup h2 (mem_nz _ h))]
    simp only [Option.bind]
    rw [free_release w _ p hq (by simp [hget])
      (not_mem_left_of_nodup h3 (List.mem_singleton_self p))]
    simp only [Option.bind]
    rw [ih _ a.next f hrest h4 (by simp at hf; omega)]
    simp [attrBlocks, List.append_assoc]

theorem free_status_loop_release (w : World) :
    ∀ (l : List (Nat × brp_cmdstat × List (Nat × attrl))) (ds : List Nat) (p fuel : Nat),
      statChain w.heap p l → (ds ++ statBlocks l).Nodup → statSize l < fuel →
      free_status_loop fuel p (w.release ds) = some (w.release (ds ++ statBlocks l)) := by
  intro l
  induction l with
  | nil =>
    intro ds p fuel hc _ hf
    obtain ⟨f, rfl⟩ : ∃ f, fuel = f + 1 := ⟨fuel - 1, by simp [statSize] at hf; omega⟩
    simp only [statChain] at hc
    simp [free_status_loop, hc, statBlocks]
  | cons e l ih =>
    intro ds p fuel hc hnd hf
    obtain ⟨q, s, al⟩ := e
    obtain ⟨f, rfl⟩ : ∃ f, fuel = f + 1 := ⟨fuel - 1, by simp [statSize] at hf; omega⟩
    obtain ⟨rfl, hq, hget, hattr, hrest⟩ := hc
    simp only [statSize] at hf
    have h2 : (((ds ++ attrBlocks al) ++ [p]) ++ statBlocks l).Nodup := by
      simpa [statBlocks, List.append_assoc] using hnd
    have h1 := h2.of_append_left
    have h0 := h1.of_append_left
    have hpd : p ∉ ds := by
      have := not_mem_left_of_nodup h1 (List.mem_singleton_self p)
      intro hmem; exact this (by simp [hmem])
    have hg : (w.release ds).heap.get p = some (Cell.cmdstat s) := by
      rw [World.get_release]; simp [hpd, hget]
    unfold free_status_loop
    rw [if_neg hq, hg]
    simp only []
    rw [free_attrl_loop_release w al ds s.brp_attrl f hattr h0 (by omega)]
    simp only [Option.bind]
    rw [free_release w _ p hq (by simp [hget])
      (not_mem_left_of_nodup h1 (List.mem_singleton_self p))]
    simp only [Option.bind]
    rw [ih _ s.brp_stlink f hrest h2 (by omega)]
    simp [statBlocks, List.append_assoc]

theorem released_release (w : World) (bs : List Nat) (h : bs.Nodup) :
    Released w (w.release bs) bs :=
  ⟨rfl, h, fun q => World.get_release w bs q, rfl, rfl, rfl, rfl⟩

/-- C1: for a reply of variant Text, Select, Status or RescQuery whose
reachable structure is well formed (acyclic lists, pairwise distinct
allocated blocks), `PBSD_FreeReply` returns, having called `free` exactly
once on each reachable block (strings, list nodes, arrays, the record) and on
nothing else; for a null pointer it releases nothing. -/
theorem PBSD_FreeReply_releases_reachable (K : Consts) (w : World) (p : Nat) (s : Shape)
    (fuel : Nat) (hK : K.distinct) (hs : s.holds K w.heap p) (hnd : (s.blocks p).Nodup)
    (hf : s.size < fuel) :
    ∃ w1, PBSD_FreeReply K fuel p w = some w1 ∧ Released w w1 (s.blocks p) := by
  obtain ⟨hTS, hTC, hTR, hSC, hSR, hCR⟩ := hK
  cases s with
  | null =>
    simp only [Shape.holds] at hs
    refine ⟨w, by simp [PBSD_FreeReply, hs], ?_⟩
    simpa [Shape.blocks, World.release_nil] using released_release w [] List.nodup_nil
  | text r =>
    obtain ⟨hp, hget, hch, hstr⟩ := hs
    simp only [Shape.blocks] at hnd ⊢
    by_cases h0 : r.brp_str = 0
    · refine ⟨w.release [p], ?_, ?_⟩
      · have := free_release w [] p hp (by simp [hget]) (by simp)
        simp only [World.release_nil, List.nil_append] at this
        simp [PBSD_FreeReply, hp, hget, hch, h0, this]
      · simpa [nz, h0] using released_release w [p] (by simp)
    · have hne : r.brp_str ≠ p := by
        intro h
        rw [h] at hnd
        simp [nz, hp] at hnd
      obtain ⟨c, hc⟩ := Option.isSome_iff_exists.mp (hstr h0)
      let r1 : batch_reply := { r with brp_str := 0, brp_txtlen := 0 }
      refine ⟨{ w with
          heap := ((w.heap.del r.brp_str).set p (Cell.reply r1)).del p,
          trace := (w.trace ++ [Event.free r.brp_str]) ++ [Event.free p] }, ?_, ?_⟩
      · simp only [PBSD_FreeReply, if_neg hp, hget, hch, if_true, if_pos h0, free, if_neg h0, hc,
          Option.map, Option.bind, Heap.get_set, r1]
      · refine ⟨by simp [nz, h0], hnd, ?_, rfl, rfl, rfl, rfl⟩
        intro q
        simp only [Heap.get_del, Heap.get_set, nz, if_neg h0, List.mem_append,
          List.mem_singleton, List.cons_append, List.nil_append, List.mem_cons, List.not_mem_nil,
          or_false]
        by_cases hq : q = p
        · simp [hq]
        · by_cases hq2 : q = r.brp_str <;> simp [hq, hq2]
  | select r l =>
    obtain ⟨hp, hget, hch, hchain⟩ := hs
    simp only [Shape.blocks] at hnd ⊢
    simp only [Shape.size] at hf
    refine ⟨w.release (selBlocks l ++ [p]), ?_, released_release w _ hnd⟩
    have hloop := free_select_loop_release w l [] r.brp_select fuel hchain
      (by simpa using hnd.of_append_left) hf
    simp only [World.release_nil, List.nil_append] at hloop
    have hfree := free_release w (selBlocks l) p hp (by simp [hget])
      (not_mem_left_of_nodup hnd (List.mem_singleton_self p))
    simp [PBSD_FreeReply, hp, hget, hch, Ne.symm hTS, hloop, hfree]
  | status r l =>
    obtain ⟨hp, hget, hch, hchain⟩ := hs
    simp only [Shape.blocks] at hnd ⊢
    simp only [Shape.size] at hf
    refine ⟨w.release (statBlocks l ++ [p]), ?_, released_release w _ hnd⟩
    have hloop := free_status_loop_release w l [] r.brp_statc fuel hchain
      (by simpa using hnd.of_append_left) hf
    simp only [World.release_nil, List.nil_append] at hloop
    have hfree := free_release w (statBlocks l) p hp (by simp [hget])
      (not_mem_left_of_nodup hnd (List.mem_singleton_self p))
    simp [PBSD_FreeReply, hp, hget, hch, Ne.symm hTC, Ne.symm hSC, hloop, hfree]
  | rescq r =>
    obtain ⟨hp, hget, hch, ha, hb, hc, hd⟩ := hs
    simp only [Shape.blocks] at hnd ⊢
    refine ⟨w.release (nz r.brq_avail ++ nz r.brq_alloc ++ nz r.brq_resvd ++ nz r.brq_down
      ++ [p]), ?_, released_release w _ hnd⟩
    have h3 := hnd.of_append_left
    have h2 := h3.of_append_left
    have h1 := h2.of_append_left
    have f1 := free_release_nz w [] r.brq_avail ha (by simp)
    simp only [World.release_nil, List.nil_append] at f1
    have f2 := free_release_nz w _ r.brq_alloc hb
      (fun h => not_mem_left_of_nodup h1 (mem_nz _ h))
    have f3 := free_release_nz w _ r.brq_resvd hc
      (fun h => not_mem_left_of_nodup h2 (mem_nz _ h))
    have f4 := free_release_nz w _ r.brq_down hd
      (fun h => not_mem_left_of_nodup h3 (mem_nz _ h))
    have f5 := free_release w _ p hp (by simp [hget])
      (not_mem_left_of_nodup hnd (List.mem_singleton_self p))
    simp only [PBSD_FreeReply, if_neg hp, hget, hch, Ne.symm hTR, Ne.symm hSR, Ne.symm hCR,
      ↓reduceIte, f1, f2, f3, f4, f5, Option.bind]

/-! ## Facts about the allocator -/

theorem Heap.lt_fresh (h : Heap) : ∀ e ∈ h, e.1 < h.fresh := by
  induction h with
  | nil => intro e he; simp at he
  | cons a h ih =>
    intro e he
    simp only [Heap.fresh, List.map_cons, List.foldr_cons] at ih ⊢
    rcases List.mem_cons.mp he with rfl | he
    · omega
    · have := ih e he; omega

theorem Heap.get_fresh (h : Heap) : h.get h.fresh = none := by
  have key : ∀ (g : Heap) (p : Nat), (∀ e ∈ g, e.1 < p) → g.get p = none := by
    intro g
    induction g with
    | nil => intro p _; rfl
    | cons a g ih =>
      intro p hp
      obtain ⟨q, c⟩ := a
      have h1 : q < p := hp (q, c) (List.mem_cons_self _ _)
      have h2 : q ≠ p := by omega
      simp only [Heap.get, if_neg h2]
      exact ih p (fun e he => hp e (List.mem_cons_of_mem _ he))
  exact key h h.fresh h.lt_fresh

theorem Heap.fresh_ne_zero (h : Heap) : h.fresh ≠ 0 := by
  simp [Heap.fresh]

theorem Heap.del_fresh (h : Heap) : h.del h.fresh = h := by
  unfold Heap.del
  apply List.filter_eq_self.mpr
  intro e he
  have := h.lt_fresh e he
  simp; omega

theorem Heap.set_fresh_memset (h : Heap) :
    (h.set h.fresh Cell.uninit).set h.fresh (Cell.reply batch_reply.zero) = recordHeap h := by
  have h1 : (h.del h.fresh).del h.fresh = h := by rw [Heap.del_fresh, Heap.del_fresh]
  simp only [Heap.set, recordHeap]
  congr 1
  simp only [Heap.del, List.filter, ne_eq, not_true_eq_false, decide_False]
  exact h1

theorem malloc_ok (w : World) (rest : List Bool) (h : w.avail = true :: rest) :
    malloc w = (w.heap.fresh,
      { w with heap := w.heap.set w.heap.fresh Cell.uninit,
               trace := w.trace ++ [Event.malloc w.heap.fresh], avail := rest }) := by
  simp [malloc, h]

theorem malloc_fail (w : World) (h : ¬ w.canAlloc) :
    malloc w = (0, { w with avail := w.avail.tail }) := by
  obtain ⟨hp, tr, en, tm, cn, av⟩ := w
  unfold World.canAlloc at h
  unfold malloc
  rcases av with _ | ⟨b, rest⟩
  · simp
  · cases b
    · simp
    · simp at h

theorem strdup_ok (s : String) (w : World) (rest : List Bool) (h : w.avail = true :: rest) :
    strdup s w = (w.heap.fresh,
      { w with heap := w.heap.set w.heap.fresh (Cell.str (c_str s)),
               trace := w.trace ++ [Event.strdup w.heap.fresh], avail := rest }) := by
  simp [strdup, h]

theorem strdup_fail (s : String) (w : World) (h : ¬ w.canAlloc) :
    strdup s w = (0, { w with avail := w.avail.tail }) := by
  obtain ⟨hp, tr, en, tm, cn, av⟩ := w
  unfold World.canAlloc at h
  unfold strdup
  rcases av with _ | ⟨b, rest⟩
  · simp
  · cases b
    · simp
    · simp at h

/-! ## The three ways through `PBSD_rdrpy_sock` -/

theorem PBSD_rdrpy_sock_nomem (K : Consts) (dec : Decoder) (sock : Int) (w : World)
    (h : ¬ w.canAlloc) :
    PBSD_rdrpy_sock K dec sock w =
      some (0, K.DIS_SUCCESS, { w with avail := w.avail.tail, pbs_errno := K.PBSE_SYSTEM }) := by
  simp [PBSD_rdrpy_sock, malloc_fail w h]

theorem PBSD_rdrpy_sock_fail (K : Consts) (dec : Decoder) (sock : Int) (w : World)
    (rest : List Bool) (rc : Int) (h2 : Heap) (hav : w.avail = true :: rest)
    (hdec : dec sock w.heap.fresh (recordHeap w.heap) = (rc, h2)) (hrc : rc ≠ 0)
    (hrec : (h2.get w.heap.fresh).isSome) :
    PBSD_rdrpy_sock K dec sock w =
      some (0, rc,
        { heap := h2.del w.heap.fresh,
          trace := w.trace ++ [Event.malloc w.heap.fresh, Event.DIS_tcp_setup sock,
            Event.decode_DIS_replyCmd sock w.heap.fresh, Event.free w.heap.fresh],
          pbs_errno := K.PBSE_PROTOCOL,
          pbs_tcp_timeout :=
            if w.pbs_tcp_timeout < K.PBS_DIS_TCP_TIMEOUT_LONG then K.PBS_DIS_TCP_TIMEOUT_LONG
            else w.pbs_tcp_timeout,
          connection := w.connection,
          avail := rest }) := by
  obtain ⟨c, hc⟩ := Option.isSome_iff_exists.mp hrec
  unfold PBSD_rdrpy_sock
  rw [malloc_ok w rest hav]
  simp only [if_neg w.heap.fresh_ne_zero, memset_reply, DIS_tcp_setup, decode_DIS_replyCmd,
    Heap.set_fresh_memset, hdec, ne_eq, hrc, not_false_eq_true, if_true, free, hc]
  by_cases hlt : w.pbs_tcp_timeout < K.PBS_DIS_TCP_TIMEOUT_LONG
  · simp [hlt, hdec, hc, hrc]
  · simp [hlt, hdec, hc, hrc]

theorem PBSD_rdrpy_sock_ok (K : Consts) (dec : Decoder) (sock : Int) (w : World)
    (rest : List Bool) (h2 : Heap) (r : batch_reply) (hav : w.avail = true :: rest)
    (hdec : dec sock w.heap.fresh (recordHeap w.heap) = (0, h2))
    (hrec : h2.get w.heap.fresh = some (Cell.reply r)) :
    PBSD_rdrpy_sock K dec sock w =
      some (w.heap.fresh, 0,
        { heap := h2,
          trace := w.trace ++ [Event.malloc w.heap.fresh, Event.DIS_tcp_setup sock,
            Event.decode_DIS_replyCmd sock w.heap.fresh, Event.DIS_tcp_reset sock],
          pbs_errno := r.brp_code,
          pbs_tcp_timeout := w.pbs_tcp_timeout,
          connection := w.connection,
          avail := rest }) := by
  unfold PBSD_rdrpy_sock
  rw [malloc_ok w rest hav]
  simp only [if_neg w.heap.fresh_ne_zero, memset_reply, DIS_tcp_setup, decode_DIS_replyCmd,
    Heap.set_fresh_memset, DIS_tcp_reset]
  by_cases hlt : w.pbs_tcp_timeout < K.PBS_DIS_TCP_TIMEOUT_LONG
  · simp [hlt, hdec, hrec]
  · simp [hlt, hdec, hrec]

/-! ## The session table -/

theorem conn_set_ch_errtxt (w : World) (c : Int) (p : Nat) :
    conn (set_ch_errtxt c p w) c = (conn w c).map (fun ch => { ch with ch_errtxt := p }) := by
  unfold conn set_ch_errtxt
  by_cases h : 0 ≤ c
  · simp [h, List.getElem?_modify_eq]
  · simp [h]

theorem conn_congr (w1 w2 : World) (c : Int) (h : w1.connection = w2.connection) :
    conn w1 c = conn w2 c := by
  simp [conn, h]

theorem conn_cleared (w : World) (c : Int) (ch : connect_handle) (h : conn w c = some ch) :
    conn (w.cleared c ch.ch_errtxt) c = some { ch with ch_errtxt := 0 } := by
  unfold World.cleared
  by_cases he : ch.ch_errtxt = 0
  · rw [if_pos he, h]
    congr 1
    cases ch; simp_all
  · rw [if_neg he, conn_set_ch_errtxt]
    have : conn { w with heap := w.heap.del ch.ch_errtxt,
                         trace := w.trace ++ [Event.free ch.ch_errtxt] } c = conn w c :=
      conn_congr _ _ _ rfl
    rw [this, h]; rfl

theorem cleared_trace (w : World) (c : Int) (e : Nat) :
    (w.cleared c e).trace = w.trace ++ (nz e).map Event.free := by
  unfold World.cleared nz; split <;> simp [set_ch_errtxt]

theorem cleared_avail (w : World) (c : Int) (e : Nat) : (w.cleared c e).avail = w.avail := by
  unfold World.cleared; split <;> rfl

theorem cleared_timeout (w : World) (c : Int) (e : Nat) :
    (w.cleared c e).pbs_tcp_timeout = w.pbs_tcp_timeout := by
  unfold World.cleared; split <;> rfl

theorem clear_step (w : World) (c : Int) (ch : connect_handle)
    (he : ch.ch_errtxt ≠ 0 → (w.heap.get ch.ch_errtxt).isSome) :
    (if ch.ch_errtxt ≠ 0 then (free ch.ch_errtxt w).map fun w => set_ch_errtxt c 0 w
      else some w) = some (w.cleared c ch.ch_errtxt) := by
  unfold World.cleared
  by_cases h0 : ch.ch_errtxt = 0
  · simp [h0]
  · obtain ⟨x, hx⟩ := Option.isSome_iff_exists.mp (he h0)
    simp [h0, free, hx]

/-- The function starts by releasing the stored diagnostic; from there on it
runs as it would from the cleared state. -/
theorem PBSD_rdrpy_cleared (K : Consts) (dec : Decoder) (c : Int) (w : World)
    (ch : connect_handle) (hc : conn w c = some ch)
    (he : ch.ch_errtxt ≠ 0 → (w.heap.get ch.ch_errtxt).isSome) :
    PBSD_rdrpy K dec c w = PBSD_rdrpy K dec c (w.cleared c ch.ch_errtxt) := by
  have h1 := conn_cleared w c ch hc
  have h2 := clear_step w c ch he
  unfold PBSD_rdrpy
  rw [hc, h1]
  simp only [Option.bind, h2, ne_eq, not_true_eq_false, if_false, h1]

theorem conn_pos (w : World) (c : Int) (ch : connect_handle) (h : conn w c = some ch) :
    0 ≤ c ∧ w.connection[c.toNat]? = some ch := by
  unfold conn at h
  by_cases hc : 0 ≤ c
  · simpa [hc] using h
  · simp [hc] at h


/-! ## Helper facts for the paths through `PBSD_rdrpy` -/

theorem head_true (l : List Bool) (h : l.head? = some true) : ∃ r, l = true :: r := by
  rcases l with _ | ⟨b, r⟩
  · simp at h
  · exact ⟨r, by simpa using h⟩

theorem conn_of (w : World) (c : Int) (ch : connect_handle) (h0 : 0 ≤ c)
    (h : w.connection[c.toNat]? = some ch) : conn w c = some ch := by
  simp [conn, h0, h]

theorem dis_emsg_of (K : Consts) (rc : Int) (msg : String) (h0 : 0 ≤ rc)
    (h : K.dis_emsg[rc.toNat]? = some msg) : dis_emsg K rc = some msg := by
  simp [dis_emsg, h0, h]

theorem c_str_eq_self (s : String) (h : Char.ofNat 0 ∉ s.data) : c_str s = s := by
  have : s.data.takeWhile (fun ch => ch != Char.ofNat 0) = s.data := by
    apply List.takeWhile_eq_self_iff.mpr
    intro ch hch
    have : ch ≠ Char.ofNat 0 := fun hc => h (hc ▸ hch)
    simpa using this
  simp [c_str, this]

/-- The decode fails and the copy of the message is allocated. -/
theorem rdrpy_fail_step (K : Consts) (dec : Decoder) (c : Int) (w : World)
    (ch : connect_handle) (rest : List Bool) (rc : Int) (h2 : Heap) (msg : String)
    (hc : conn w c = some ch)
    (he : ch.ch_errtxt ≠ 0 → (w.heap.get ch.ch_errtxt).isSome)
    (hav : w.avail = true :: true :: rest)
    (hdec : dec ch.ch_socket (replyAddr w c ch) (decodeHeap w c ch) = (rc, h2))
    (hrc : rc ≠ 0)
    (hrec : (h2.get (replyAddr w c ch)).isSome)
    (hmsg : dis_emsg K rc = some msg) :
    ∃ w1 q, PBSD_rdrpy K dec c w = some (0, w1) ∧ q ≠ 0 ∧
      conn w1 c = some { ch with ch_errno := K.PBSE_PROTOCOL, ch_errtxt := q } ∧
      w1.heap.get q = some (Cell.str (c_str msg)) ∧
      w1.pbs_errno = K.PBSE_PROTOCOL ∧ w1.avail = rest ∧
      w1.trace = w.trace ++ (nz ch.ch_errtxt).map Event.free ++
        [Event.malloc (replyAddr w c ch), Event.DIS_tcp_setup ch.ch_socket,
         Event.decode_DIS_replyCmd ch.ch_socket (replyAddr w c ch),
         Event.free (replyAddr w c ch), Event.strdup q] := by
  have h1 := conn_cleared w c ch hc
  obtain ⟨hpos, hget⟩ := conn_pos _ _ _ h1
  obtain ⟨ws, hs, hwc, hwa, hwe, hwt⟩ : ∃ ws, PBSD_rdrpy_sock K dec ch.ch_socket
      (w.cleared c ch.ch_errtxt) = some (0, rc, ws) ∧
      ws.connection = (w.cleared c ch.ch_errtxt).connection ∧ ws.avail = true :: rest ∧
      ws.pbs_errno = K.PBSE_PROTOCOL ∧
      ws.trace = (w.cleared c ch.ch_errtxt).trace ++
        [Event.malloc (replyAddr w c ch), Event.DIS_tcp_setup ch.ch_socket,
         Event.decode_DIS_replyCmd ch.ch_socket (replyAddr w c ch),
         Event.free (replyAddr w c ch)] :=
    ⟨_, PBSD_rdrpy_sock_fail K dec ch.ch_socket (w.cleared c ch.ch_errtxt)
      (true :: rest) rc h2 (by rw [cleared_avail]; exact hav) hdec hrc hrec, rfl, rfl, rfl,
      rfl⟩
  rw [PBSD_rdrpy_cleared K dec c w ch hc he]
  unfold PBSD_rdrpy
  rw [h1]
  simp only [Option.bind, ne_eq, not_true_eq_false, if_false, h1, hs, if_true, hmsg]
  rw [strdup_ok msg (set_ch_errno c K.PBSE_PROTOCOL ws) rest (by simpa [set_ch_errno] using hwa)]
  simp only [Heap.fresh_ne_zero, if_false]
  refine ⟨_, (set_ch_errno c K.PBSE_PROTOCOL ws).heap.fresh, rfl, Heap.fresh_ne_zero _,
    ?_, ?_, ?_, rfl, ?_⟩
  · simp [conn, set_ch_errtxt, set_ch_errno, hpos, hget, hwc, List.getElem?_modify_eq]
  · simp [set_ch_errtxt, set_ch_errno, Heap.get_set]
  · simpa [set_ch_errtxt, set_ch_errno] using hwe
  · simp [set_ch_errtxt, set_ch_errno, hwt, cleared_trace]

/-- The decode succeeds with a Text reply carrying a buffer and the copy of the
text is allocated. -/
theorem rdrpy_text_step (K : Consts) (dec : Decoder) (c : Int) (w : World)
    (ch : connect_handle) (rest : List Bool) (h2 : Heap) (r : batch_reply) (s : String)
    (hc : conn w c = some ch)
    (he : ch.ch_errtxt ≠ 0 → (w.heap.get ch.ch_errtxt).isSome)
    (hav : w.avail = true :: true :: rest)
    (hdec : dec ch.ch_socket (replyAddr w c ch) (decodeHeap w c ch) = (0, h2))
    (hrec : h2.get (replyAddr w c ch) = some (Cell.reply r))
    (hT1 : r.brp_choice = K.BATCH_REPLY_CHOICE_Text) (hT2 : r.brp_str ≠ 0)
    (hsg : h2.get r.brp_str = some (Cell.str s)) :
    ∃ w1 q, PBSD_rdrpy K dec c w = some (replyAddr w c ch, w1) ∧ q ≠ 0 ∧ q ≠ r.brp_str ∧
      conn w1 c = some { ch with ch_errno := r.brp_code, ch_errtxt := q } ∧
      w1.heap.get q = some (Cell.str (c_str s)) ∧
      w1.heap.get r.brp_str = some (Cell.str s) ∧
      w1.heap.get (replyAddr w c ch) = some (Cell.reply r) ∧
      w1.pbs_errno = r.brp_code ∧ w1.avail = rest := by
  simp only [replyAddr, decodeHeap] at hdec hrec ⊢
  have h1 := conn_cleared w c ch hc
  obtain ⟨hpos, hget⟩ := conn_pos _ _ _ h1
  obtain ⟨ws, hs, hwc, hwa, hwh⟩ : ∃ ws, PBSD_rdrpy_sock K dec ch.ch_socket
      (w.cleared c ch.ch_errtxt) = some ((w.cleared c ch.ch_errtxt).heap.fresh, 0, ws) ∧
      ws.connection = (w.cleared c ch.ch_errtxt).connection ∧ ws.avail = true :: rest ∧
      ws.heap = h2 :=
    ⟨_, PBSD_rdrpy_sock_ok K dec ch.ch_socket (w.cleared c ch.ch_errtxt)
      (true :: rest) h2 r (by rw [cleared_avail]; exact hav) hdec hrec, rfl, rfl, rfl⟩
  have hp := (w.cleared c ch.ch_errtxt).heap.fresh_ne_zero
  rw [PBSD_rdrpy_cleared K dec c w ch hc he]
  unfold PBSD_rdrpy
  rw [h1]
  simp only [Option.bind, ne_eq, not_true_eq_false, if_false, h1, hs, hp, hwh, hrec]
  have hsg2 : (set_ch_errno c r.brp_code ws).heap.get r.brp_str = some (Cell.str s) := by
    simpa [set_ch_errno, hwh] using hsg
  simp only [hT1, if_true, hT2, not_false_eq_true, hsg2]
  rw [strdup_ok s _ rest (by simpa [set_ch_errno] using hwa)]
  simp only [Heap.fresh_ne_zero, if_false]
  have hfr : h2.fresh ≠ r.brp_str := by
    intro h
    have := h2.get_fresh
    rw [h, hsg] at this
    simp at this
  have hfp : (w.cleared c ch.ch_errtxt).heap.fresh ≠ h2.fresh := by
    intro h
    have := h2.get_fresh
    rw [← h, hrec] at this
    simp at this
  refine ⟨_, h2.fresh, rfl, Heap.fresh_ne_zero _, hfr, ?_, ?_, ?_, ?_, rfl, rfl⟩
  · simp [conn, set_ch_errtxt, set_ch_errno, hpos, hget, hwc, hwh,
      List.getElem?_modify_eq]
  · simp [set_ch_errtxt, set_ch_errno, hwh, Heap.get_set]
  · simp [set_ch_errtxt, set_ch_errno, hwh, Heap.get_set, Ne.symm hfr, hsg]
  · simp [set_ch_errtxt, set_ch_errno, hwh, Heap.get_set, hfp, hrec]

/-- The decode succeeds with a reply that carries no text buffer; no copy is
made. -/
theorem rdrpy_plain_step (K : Consts) (dec : Decoder) (c : Int) (w : World)
    (ch : connect_handle) (rest : List Bool) (h2 : Heap) (r : batch_reply)
    (hc : conn w c = some ch)
    (he : ch.ch_errtxt ≠ 0 → (w.heap.get ch.ch_errtxt).isSome)
    (hav : w.avail = true :: rest)
    (hdec : dec ch.ch_socket (replyAddr w c ch) (decodeHeap w c ch) = (0, h2))
    (hrec : h2.get (replyAddr w c ch) = some (Cell.reply r))
    (hT : ¬ (r.brp_choice = K.BATCH_REPLY_CHOICE_Text ∧ r.brp_str ≠ 0)) :
    ∃ w1, PBSD_rdrpy K dec c w = some (replyAddr w c ch, w1) ∧
      conn w1 c = some { ch with ch_errno := r.brp_code, ch_errtxt := 0 } ∧
      w1.heap.get (replyAddr w c ch) = some (Cell.reply r) ∧
      w1.pbs_errno = r.brp_code ∧ w1.avail = rest := by
  simp only [replyAddr, decodeHeap] at hdec hrec ⊢
  have h1 := conn_cleared w c ch hc
  obtain ⟨hpos, hget⟩ := conn_pos _ _ _ h1
  obtain ⟨ws, hs, hwc, hwa, hwh⟩ : ∃ ws, PBSD_rdrpy_sock K dec ch.ch_socket
      (w.cleared c ch.ch_errtxt) = some ((w.cleared c ch.ch_errtxt).heap.fresh, 0, ws) ∧
      ws.connection = (w.cleared c ch.ch_errtxt).connection ∧ ws.avail = rest ∧
      ws.heap = h2 :=
    ⟨_, PBSD_rdrpy_sock_ok K dec ch.ch_socket (w.cleared c ch.ch_errtxt)
      rest h2 r (by rw [cleared_avail]; exact hav) hdec hrec, rfl, rfl, rfl⟩
  have hp := (w.cleared c ch.ch_errtxt).heap.fresh_ne_zero
  rw [PBSD_rdrpy_cleared K dec c w ch hc he]
  unfold PBSD_rdrpy
  rw [h1]
  simp only [Option.bind, ne_eq, not_true_eq_false, if_false, h1, hs, hp, hwh, hrec]
  refine ⟨{ set_ch_errno c r.brp_code ws with pbs_errno := r.brp_code }, ?_, ?_, ?_, rfl, hwa⟩
  · by_cases hT1 : r.brp_choice = K.BATCH_REPLY_CHOICE_Text
    · have hT2 : r.brp_str = 0 := by
        by_contra hne; exact hT ⟨hT1, hne⟩
      simp [hT1, hT2]
    · simp [hT1]
  · simp [conn, set_ch_errno, hpos, hget, hwc, List.getElem?_modify_eq]
  · simpa [set_ch_errno, hwh] using hrec

/-! ## `PBSD_rdrpy`: decode failure -/

/-- C5, as amended: for a valid session, when the reply record is allocated and
the envelope decode fails with a code `rc` that indexes the table `dis_emsg`,
`PBSD_rdrpy` returns no record, sets the entry's `ch_errno` to `PBSE_PROTOCOL`
and, the copy allocation succeeding, stores as diagnostic a freshly allocated
copy of the C string `dis_emsg[rc]`, for that same `rc`. -/
theorem PBSD_rdrpy_decode_error (K : Consts) (dec : Decoder) (c : Int) (w : World)
    (ch : connect_handle) (rest : List Bool) (rc : Int) (h2 : Heap) (msg : String)
    (hc0 : 0 ≤ c) (hc : w.connection[c.toNat]? = some ch)
    (he : ch.ch_errtxt ≠ 0 → (w.heap.get ch.ch_errtxt).isSome)
    (hav : w.avail = true :: true :: rest)
    (hdec : dec ch.ch_socket (replyAddr w c ch) (decodeHeap w c ch) = (rc, h2))
    (hrc : rc ≠ 0)
    (hrec : (h2.get (replyAddr w c ch)).isSome)
    (hr0 : 0 ≤ rc) (hmsg : K.dis_emsg[rc.toNat]? = some msg) :
    ∃ w1 ch1, PBSD_rdrpy K dec c w = some (0, w1) ∧ w1.connection[c.toNat]? = some ch1 ∧
      ch1.ch_errno = K.PBSE_PROTOCOL ∧ ch1.ch_errtxt ≠ 0 ∧
      w1.heap.get ch1.ch_errtxt = some (Cell.str (c_str msg)) ∧
      ch1.ch_socket = ch.ch_socket ∧ w1.pbs_errno = K.PBSE_PROTOCOL := by
  obtain ⟨w1, q, hrun, hq, hcn, hheap, herr, -⟩ :=
    rdrpy_fail_step K dec c w ch rest rc h2 msg (conn_of w c ch hc0 hc) he hav hdec hrc hrec
      (dis_emsg_of K rc msg hr0 hmsg)
  exact ⟨w1, _, hrun, (conn_pos _ _ _ hcn).2, rfl, hq, hheap, rfl, herr⟩

/-- C5 as amended, at a concrete input (Scenario D): one session on socket 3,
the stream at end of file. No record, last error `PBSE_PROTOCOL`, diagnostic
"End of File". -/
theorem PBSD_rdrpy_decode_error_witness :
    Kstd.dis_emsg[(11 : Int).toNat]? = some "End of File" ∧
    ∃ w1 ch1, PBSD_rdrpy Kstd decEOF 0 (world0 2) = some (0, w1) ∧
      w1.connection[(0 : Int).toNat]? = some ch1 ∧
      ch1.ch_errno = Kstd.PBSE_PROTOCOL ∧ ch1.ch_errtxt ≠ 0 ∧
      w1.heap.get ch1.ch_errtxt = some (Cell.str (c_str "End of File")) ∧
      ch1.ch_socket = 3 ∧ w1.pbs_errno = Kstd.PBSE_PROTOCOL :=
  ⟨by decide,
   PBSD_rdrpy_decode_error Kstd decEOF 0 (world0 2)
     { ch_inuse := true, ch_socket := 3, ch_errno := 0, ch_errtxt := 0 } [] 11
     [(1, Cell.reply batch_reply.zero)] "End of File"
     (by decide) (by decide) (by decide) (by decide) (by decide) (by decide) (by decide)
     (by decide) (by decide)⟩

/-- C5 fails as stated: the decoder fails with code 12, for which the sample
table of twelve messages has no entry; `dis_emsg[12]` reads past the table and
the call does not end with a diagnostic looked up for that code. -/
theorem PBSD_rdrpy_decode_error_code_outside_table :
    (decBadCode 3 1 (recordHeap [])).1 = 12 ∧ Kstd.dis_emsg.length = 12 ∧
    Kstd.dis_emsg[(12 : Int).toNat]? = none ∧
    ¬ ∃ w1 ch1 msg, PBSD_rdrpy Kstd decBadCode 0 (world0 2) = some (0, w1) ∧
        w1.connection[(0 : Int).toNat]? = some ch1 ∧
        w1.heap.get ch1.ch_errtxt = some (Cell.str msg) := by
  refine ⟨by decide, by decide, by decide, ?_⟩
  rintro ⟨w1, ch1, msg, h, -, -⟩
  have h0 : PBSD_rdrpy Kstd decBadCode 0 (world0 2) = none := by decide
  rw [h0] at h
  exact Option.noConfusion h

/-! ## `PBSD_rdrpy`: decode success -/

/-- C4, as amended: for a valid session and a successful decode (the record
and, where it is made, the diagnostic copy being allocated), `PBSD_rdrpy`
returns the decoded record and leaves `ch_errno` (and `pbs_errno`) equal to the
record's `brp_code`, zero or not. If the variant is Text with a non-null
buffer, the entry's `ch_errtxt` is a separate block holding the buffer's C
string, that is its text up to the first NUL byte (the whole text when it has
none), and the record keeps its own buffer; otherwise `ch_errtxt` is null,
whatever it was before the call. -/
theorem PBSD_rdrpy_success (K : Consts) (dec : Decoder) (c : Int) (w : World)
    (ch : connect_handle) (rest : List Bool) (h2 : Heap) (r : batch_reply) (s : String)
    (hc0 : 0 ≤ c) (hc : w.connection[c.toNat]? = some ch)
    (he : ch.ch_errtxt ≠ 0 → (w.heap.get ch.ch_errtxt).isSome)
    (hav : w.avail = true :: rest)
    (hcopy : r.brp_choice = K.BATCH_REPLY_CHOICE_Text → r.brp_str ≠ 0 →
      rest.head? = some true)
    (hdec : dec ch.ch_socket (replyAddr w c ch) (decodeHeap w c ch) = (0, h2))
    (hrec : h2.get (replyAddr w c ch) = some (Cell.reply r))
    (hstr : r.brp_choice = K.BATCH_REPLY_CHOICE_Text → r.brp_str ≠ 0 →
      h2.get r.brp_str = some (Cell.str s)) :
    ∃ w1 ch1, PBSD_rdrpy K dec c w = some (replyAddr w c ch, w1) ∧
      replyAddr w c ch ≠ 0 ∧ w1.heap.get (replyAddr w c ch) = some (Cell.reply r) ∧
      w1.connection[c.toNat]? = some ch1 ∧ ch1.ch_errno = r.brp_code ∧
      w1.pbs_errno = r.brp_code ∧
      (r.brp_choice = K.BATCH_REPLY_CHOICE_Text ∧ r.brp_str ≠ 0 →
        ch1.ch_errtxt ≠ 0 ∧ ch1.ch_errtxt ≠ r.brp_str ∧
        w1.heap.get ch1.ch_errtxt = some (Cell.str (c_str s)) ∧
        w1.heap.get r.brp_str = some (Cell.str s) ∧
        (Char.ofNat 0 ∉ s.data → w1.heap.get ch1.ch_errtxt = some (Cell.str s))) ∧
      (¬ (r.brp_choice = K.BATCH_REPLY_CHOICE_Text ∧ r.brp_str ≠ 0) → ch1.ch_errtxt = 0) := by
  have hcn := conn_of w c ch hc0 hc
  have hnz : replyAddr w c ch ≠ 0 := Heap.fresh_ne_zero _
  by_cases hT : r.brp_choice = K.BATCH_REPLY_CHOICE_Text ∧ r.brp_str ≠ 0
  · obtain ⟨hT1, hT2⟩ := hT
    obtain ⟨rest1, hrest⟩ : ∃ rest1, rest = true :: rest1 := by
      have := hcopy hT1 hT2
      rcases rest with _ | ⟨b, rest1⟩
      · simp at this
      · exact ⟨rest1, by simpa using this⟩
    obtain ⟨w1, q, hrun, hq, hqs, hcn1, hgq, hgs, hgr, herr, -⟩ :=
      rdrpy_text_step K dec c w ch rest1 h2 r s hcn he (by rw [hav, hrest]) hdec hrec
        hT1 hT2 (hstr hT1 hT2)
    refine ⟨w1, _, hrun, hnz, hgr, (conn_pos _ _ _ hcn1).2, rfl, herr, ?_, ?_⟩
    · intro _
      exact ⟨hq, hqs, hgq, hgs, fun hno => by rw [← c_str_eq_self s hno]; exact hgq⟩
    · intro hn
      exact absurd ⟨hT1, hT2⟩ hn
  · obtain ⟨w1, hrun, hcn1, hgr, herr, -⟩ :=
      rdrpy_plain_step K dec c w ch rest h2 r hcn he hav hdec hrec hT
    refine ⟨w1, _, hrun, hnz, hgr, (conn_pos _ _ _ hcn1).2, rfl, herr, ?_, ?_⟩
    · intro h; exact absurd h hT
    · intro _; rfl

/-- C4 as amended, at a concrete input (Scenario B): the session still holds
the diagnostic of an earlier failure; a Text reply with status 15001 and
message "Unauthorized Request" arrives. The record is returned, the last
error is 15001 and the diagnostic is a separate copy of the message. -/
theorem PBSD_rdrpy_success_witness :
    ∃ w1 ch1, PBSD_rdrpy Kstd (decText 15001 "Unauthorized Request") 0 (world1 2)
        = some (1, w1) ∧
      (1 : Nat) ≠ 0 ∧
      w1.heap.get 1 = some (Cell.reply
        { batch_reply.zero with brp_code := 15001, brp_choice := 7, brp_txtlen := 20,
                                brp_str := 2 }) ∧
      w1.connection[(0 : Int).toNat]? = some ch1 ∧ ch1.ch_errno = 15001 ∧
      w1.pbs_errno = 15001 ∧
      ((7 : Int) = Kstd.BATCH_REPLY_CHOICE_Text ∧ (2 : Nat) ≠ 0 →
        ch1.ch_errtxt ≠ 0 ∧ ch1.ch_errtxt ≠ 2 ∧
        w1.heap.get ch1.ch_errtxt = some (Cell.str (c_str "Unauthorized Request")) ∧
        w1.heap.get 2 = some (Cell.str "Unauthorized Request") ∧
        (Char.ofNat 0 ∉ "Unauthorized Request".data →
          w1.heap.get ch1.ch_errtxt = some (Cell.str "Unauthorized Request"))) ∧
      (¬ ((7 : Int) = Kstd.BATCH_REPLY_CHOICE_Text ∧ (2 : Nat) ≠ 0) → ch1.ch_errtxt = 0) :=
  PBSD_rdrpy_success Kstd (decText 15001 "Unauthorized Request") 0 (world1 2)
    { ch_inuse := true, ch_socket := 3, ch_errno := 15031, ch_errtxt := 5 } [true]
    (decText 15001 "Unauthorized Request" 3 1 [(1, Cell.reply batch_reply.zero)]).2
    { batch_reply.zero with brp_code := 15001, brp_choice := 7, brp_txtlen := 20,
                            brp_str := 2 }
    "Unauthorized Request"
    (by decide) (by decide) (by decide) (by decide) (by decide) (by decide) (by decide)
    (by decide)

/-- C4 fails as stated: a Text reply of status 15001 whose buffer of 20 bytes
has a NUL byte after "Unauthorized". The record (block 1) is returned with its
buffer (block 2) intact, but the diagnostic (block 3) holds "Unauthorized"
only, not exactly the reply's text. -/
theorem PBSD_rdrpy_text_with_nul_truncated :
    (PBSD_rdrpy Kstd (decText 15001 "Unauthorized\x00Request") 0 (world0 2)).map
        (fun x => (x.1, x.2.heap.get 2, x.2.connection[(0 : Int).toNat]?, x.2.heap.get 3)) =
      some (1, some (Cell.str "Unauthorized\x00Request"),
        some { ch_inuse := true, ch_socket := 3, ch_errno := 15001, ch_errtxt := 3 },
        some (Cell.str "Unauthorized")) ∧
    "Unauthorized" ≠ "Unauthorized\x00Request" := by
  decide

/-! ## `PBSD_rdrpy`: decode success, copy allocation failing -/

/-- C6, as amended: when the decode succeeds with a Text reply carrying a
buffer but the diagnostic copy cannot be allocated, `PBSD_rdrpy` sets
`pbs_errno` to `PBSE_SYSTEM` and returns no record; the entry's `ch_errno` is
the record's `brp_code` and its `ch_errtxt` is null. -/
theorem PBSD_rdrpy_success_copy_fails (K : Consts) (dec : Decoder) (c : Int) (w : World)
    (ch : connect_handle) (rest : List Bool) (h2 : Heap) (r : batch_reply) (s : String)
    (hc : conn w c = some ch)
    (he : ch.ch_errtxt ≠ 0 → (w.heap.get ch.ch_errtxt).isSome)
    (hav : w.avail = true :: rest) (hno : rest.head? ≠ some true)
    (hdec : dec ch.ch_socket (replyAddr w c ch) (decodeHeap w c ch) = (0, h2))
    (hrec : h2.get (replyAddr w c ch) = some (Cell.reply r))
    (hT : r.brp_choice = K.BATCH_REPLY_CHOICE_Text) (hnz : r.brp_str ≠ 0)
    (hstr : h2.get r.brp_str = some (Cell.str s)) :
    ∃ w1 ch1, PBSD_rdrpy K dec c w = some (0, w1) ∧ w1.pbs_errno = K.PBSE_SYSTEM ∧
      conn w1 c = some ch1 ∧ ch1.ch_errno = r.brp_code ∧ ch1.ch_errtxt = 0 := by
  simp only [replyAddr, decodeHeap] at hdec hrec
  have h1 := conn_cleared w c ch hc
  obtain ⟨hpos, hget⟩ := conn_pos _ _ _ h1
  obtain ⟨ws, hs, hwc, hwa, hwh⟩ : ∃ ws, PBSD_rdrpy_sock K dec ch.ch_socket
      (w.cleared c ch.ch_errtxt) = some ((w.cleared c ch.ch_errtxt).heap.fresh, 0, ws) ∧
      ws.connection = (w.cleared c ch.ch_errtxt).connection ∧ ws.avail = rest ∧
      ws.heap = h2 :=
    ⟨_, PBSD_rdrpy_sock_ok K dec ch.ch_socket (w.cleared c ch.ch_errtxt)
      rest h2 r (by rw [cleared_avail]; exact hav) hdec hrec, rfl, rfl, rfl⟩
  have hp := (w.cleared c ch.ch_errtxt).heap.fresh_ne_zero
  have hsg2 : (set_ch_errno c r.brp_code ws).heap.get r.brp_str = some (Cell.str s) := by
    simpa [set_ch_errno, hwh] using hstr
  rw [PBSD_rdrpy_cleared K dec c w ch hc he]
  unfold PBSD_rdrpy
  rw [h1]
  simp only [Option.bind, ne_eq, not_true_eq_false, if_false, h1, hs, hp, hwh, hrec,
    hT, if_true, hnz, not_false_eq_true, hsg2]
  rw [strdup_fail s _ (by simpa [World.canAlloc, set_ch_errno, hwa] using hno)]
  simp only [if_true]
  refine ⟨_, { ch_inuse := ch.ch_inuse, ch_socket := ch.ch_socket, ch_errno := r.brp_code, ch_errtxt := 0 },
    rfl, rfl, ?_, rfl, rfl⟩
  simp [conn, set_ch_errtxt, set_ch_errno, hpos, hget, hwc, List.getElem?_modify_eq]

/-- C6 as amended, at a concrete input: memory for the record but not for the
copy of the text of a Text reply. -/
theorem PBSD_rdrpy_success_copy_fails_witness :
    ∃ w1 ch1, PBSD_rdrpy Kstd (decText 15001 "Unauthorized Request") 0 (world0 1)
        = some (0, w1) ∧ w1.pbs_errno = Kstd.PBSE_SYSTEM ∧
      conn w1 0 = some ch1 ∧ ch1.ch_errno = 15001 ∧ ch1.ch_errtxt = 0 :=
  PBSD_rdrpy_success_copy_fails Kstd (decText 15001 "Unauthorized Request") 0 (world0 1)
    { ch_inuse := true, ch_socket := 3, ch_errno := 0, ch_errtxt := 0 } []
    (decText 15001 "Unauthorized Request" 3 1 [(1, Cell.reply batch_reply.zero)]).2
    { batch_reply.zero with brp_code := 15001, brp_choice := 7, brp_txtlen := 20,
                            brp_str := 2 }
    "Unauthorized Request"
    (by decide) (by decide) (by decide) (by decide) (by decide) (by decide) (by decide)
    (by decide) (by decide)

/-- C6 fails as stated: with memory for the record but not for the diagnostic
copy, the decode of a Text reply succeeds (`PBSD_rdrpy_sock` returns the record
at address 1), yet `PBSD_rdrpy` returns no record. -/
theorem PBSD_rdrpy_copy_fails_returns_null :
    (PBSD_rdrpy_sock Kstd (decText 15001 "Unauthorized Request") 3 (world0 1)).map
        (fun x => x.1) = some 1 ∧
    ¬ ∃ p w1, p ≠ 0 ∧
      PBSD_rdrpy Kstd (decText 15001 "Unauthorized Request") 0 (world0 1) = some (p, w1) := by
  refine ⟨by decide, ?_⟩
  rintro ⟨p, w1, hp, h⟩
  have h0 : (PBSD_rdrpy Kstd (decText 15001 "Unauthorized Request") 0 (world0 1)).map
      (fun x => x.1) = some 0 := by decide
  rw [h] at h0
  exact hp (by simpa using h0)

/-! ## `PBSD_rdrpy`: allocation failures on the failure path -/

/-- C9, as amended: when the decode fails and the copy of the message cannot be
allocated, `PBSD_rdrpy` returns no record, the entry's `ch_errtxt` is null, the
entry's `ch_errno` stays `PBSE_PROTOCOL`, and it is the global `pbs_errno` that
is set to `PBSE_SYSTEM`. -/
theorem PBSD_rdrpy_decode_error_copy_fails (K : Consts) (dec : Decoder) (c : Int)
    (w : World) (ch : connect_handle) (rest : List Bool) (rc : Int) (h2 : Heap)
    (msg : String)
    (hc : conn w c = some ch)
    (he : ch.ch_errtxt ≠ 0 → (w.heap.get ch.ch_errtxt).isSome)
    (hav : w.avail = true :: rest) (hno : rest.head? ≠ some true)
    (hdec : dec ch.ch_socket (replyAddr w c ch) (decodeHeap w c ch) = (rc, h2))
    (hrc : rc ≠ 0)
    (hrec : (h2.get (replyAddr w c ch)).isSome)
    (hmsg : dis_emsg K rc = some msg) :
    ∃ w1 ch1, PBSD_rdrpy K dec c w = some (0, w1) ∧ conn w1 c = some ch1 ∧
      ch1.ch_errno = K.PBSE_PROTOCOL ∧ ch1.ch_errtxt = 0 ∧
      w1.pbs_errno = K.PBSE_SYSTEM := by
  have h1 := conn_cleared w c ch hc
  obtain ⟨hpos, hget⟩ := conn_pos _ _ _ h1
  obtain ⟨ws, hs, hwc, hwa⟩ : ∃ ws, PBSD_rdrpy_sock K dec ch.ch_socket
      (w.cleared c ch.ch_errtxt) = some (0, rc, ws) ∧
      ws.connection = (w.cleared c ch.ch_errtxt).connection ∧ ws.avail = rest :=
    ⟨_, PBSD_rdrpy_sock_fail K dec ch.ch_socket (w.cleared c ch.ch_errtxt)
      rest rc h2 (by rw [cleared_avail]; exact hav) hdec hrc hrec, rfl, rfl⟩
  rw [PBSD_rdrpy_cleared K dec c w ch hc he]
  unfold PBSD_rdrpy
  rw [h1]
  simp only [Option.bind, ne_eq, not_true_eq_false, if_false, h1, hs, if_true, hmsg]
  rw [strdup_fail msg _ (by simpa [World.canAlloc, set_ch_errno, hwa] using hno)]
  simp only [if_true]
  refine ⟨_, { ch_inuse := ch.ch_inuse, ch_socket := ch.ch_socket, ch_errno := K.PBSE_PROTOCOL, ch_errtxt := 0 },
    rfl, ?_, rfl, rfl, rfl⟩
  simp [conn, set_ch_errtxt, set_ch_errno, hpos, hget, hwc, List.getElem?_modify_eq]

/-- C9 as amended, at a concrete input: the stream is at end of file and there
is memory for the record only. -/
theorem PBSD_rdrpy_decode_error_copy_fails_witness :
    ∃ w1 ch1, PBSD_rdrpy Kstd decEOF 0 (world0 1) = some (0, w1) ∧ conn w1 0 = some ch1 ∧
      ch1.ch_errno = Kstd.PBSE_PROTOCOL ∧ ch1.ch_errtxt = 0 ∧
      w1.pbs_errno = Kstd.PBSE_SYSTEM :=
  PBSD_rdrpy_decode_error_copy_fails Kstd decEOF 0 (world0 1)
    { ch_inuse := true, ch_socket := 3, ch_errno := 0, ch_errtxt := 0 } [] 11
    [(1, Cell.reply batch_reply.zero)] "End of File"
    (by decide) (by decide) (by decide) (by decide) (by decide) (by decide) (by decide)
    (by decide)

/-- C9 fails as stated: the stream is at end of file and the copy of the
message cannot be allocated; the entry's `ch_errno` is then `PBSE_PROTOCOL`
(15031), not the resource-exhaustion code `PBSE_SYSTEM` (15010). -/
theorem PBSD_rdrpy_ch_errno_not_overridden :
    (PBSD_rdrpy Kstd decEOF 0 (world0 1)).bind (fun x => (conn x.2 0).map (fun ch => ch.ch_errno))
        = some 15031 ∧
    Kstd.PBSE_SYSTEM = 15010 ∧
    ¬ ∃ p w1 ch1, PBSD_rdrpy Kstd decEOF 0 (world0 1) = some (p, w1) ∧
        conn w1 0 = some ch1 ∧ ch1.ch_errno = Kstd.PBSE_SYSTEM := by
  have h0 : (PBSD_rdrpy Kstd decEOF 0 (world0 1)).bind
      (fun x => (conn x.2 0).map (fun ch => ch.ch_errno)) = some 15031 := by decide
  refine ⟨h0, rfl, ?_⟩
  rintro ⟨p, w1, ch1, h, hcn, hno⟩
  rw [h] at h0
  simp only [Option.bind, hcn, Option.map] at h0
  rw [hno] at h0
  simp [Kstd] at h0


/-! ## `PBSD_rdrpy`: the reply record cannot be allocated -/

/-- C10, as amended: when the reply record cannot be allocated,
`PBSD_rdrpy_sock` returns no record and the code `DIS_SUCCESS`, with
`pbs_errno = PBSE_SYSTEM` and nothing else changed (no transport call in the
trace, same timeout). `PBSD_rdrpy` then returns no record, sets the entry's
`ch_errno` to `PBSE_PROTOCOL`, leaves `pbs_errno = PBSE_SYSTEM`, and makes no
call to the transport; if the copy allocation succeeds the diagnostic is a
copy of the C string `dis_emsg[DIS_SUCCESS]`, and if it fails as well the
diagnostic is null. -/
theorem PBSD_rdrpy_record_alloc_fails (K : Consts) (dec : Decoder) (c : Int) (w : World)
    (ch : connect_handle) (msg : String)
    (hc0 : 0 ≤ c) (hc : w.connection[c.toNat]? = some ch)
    (he : ch.ch_errtxt ≠ 0 → (w.heap.get ch.ch_errtxt).isSome)
    (hno : w.avail.head? ≠ some true)
    (hs0 : 0 ≤ K.DIS_SUCCESS) (hmsg : K.dis_emsg[K.DIS_SUCCESS.toNat]? = some msg) :
    (∀ sock, PBSD_rdrpy_sock K dec sock w =
      some (0, K.DIS_SUCCESS, { w with avail := w.avail.tail, pbs_errno := K.PBSE_SYSTEM })) ∧
    ∃ w1 ch1, PBSD_rdrpy K dec c w = some (0, w1) ∧ w1.connection[c.toNat]? = some ch1 ∧
      ch1.ch_errno = K.PBSE_PROTOCOL ∧ w1.pbs_errno = K.PBSE_SYSTEM ∧
      w1.pbs_tcp_timeout = w.pbs_tcp_timeout ∧
      (w.avail.tail.head? = some true →
        ch1.ch_errtxt ≠ 0 ∧ w1.heap.get ch1.ch_errtxt = some (Cell.str (c_str msg)) ∧
        w1.trace = w.trace ++ (nz ch.ch_errtxt).map Event.free ++
          [Event.strdup ch1.ch_errtxt]) ∧
      (w.avail.tail.head? ≠ some true →
        ch1.ch_errtxt = 0 ∧ w1.trace = w.trace ++ (nz ch.ch_errtxt).map Event.free) := by
  refine ⟨fun sock => PBSD_rdrpy_sock_nomem K dec sock w hno, ?_⟩
  have hcn := conn_of w c ch hc0 hc
  have hm := dis_emsg_of K K.DIS_SUCCESS msg hs0 hmsg
  have h1 := conn_cleared w c ch hcn
  obtain ⟨hpos, hget⟩ := conn_pos _ _ _ h1
  have hno1 : ¬ (w.cleared c ch.ch_errtxt).canAlloc := by
    unfold World.canAlloc; rw [cleared_avail]; exact hno
  have hs := PBSD_rdrpy_sock_nomem K dec ch.ch_socket (w.cleared c ch.ch_errtxt) hno1
  rw [cleared_avail] at hs
  rw [PBSD_rdrpy_cleared K dec c w ch hcn he]
  unfold PBSD_rdrpy
  rw [h1]
  simp only [Option.bind, ne_eq, not_true_eq_false, if_false, h1, hs, if_true, hm]
  by_cases hsec : w.avail.tail.head? = some true
  · obtain ⟨rest2, hrest⟩ := head_true _ hsec
    rw [strdup_ok msg _ rest2 (by simpa [set_ch_errno] using hrest)]
    simp only [Heap.fresh_ne_zero, if_false]
    refine ⟨_, { ch with ch_errno := K.PBSE_PROTOCOL,
                         ch_errtxt := (w.cleared c ch.ch_errtxt).heap.fresh },
      rfl, ?_, rfl, rfl, ?_, ?_, ?_⟩
    · simp [conn, set_ch_errtxt, set_ch_errno, hpos, hget, List.getElem?_modify_eq]
    · simp [set_ch_errtxt, set_ch_errno, cleared_timeout]
    · intro _
      refine ⟨Heap.fresh_ne_zero _, ?_, ?_⟩
      · simp [set_ch_errtxt, set_ch_errno, Heap.get_set]
      · simp [set_ch_errtxt, set_ch_errno, cleared_trace]
    · intro hn; exact absurd hsec hn
  · rw [strdup_fail msg _ (by simpa [World.canAlloc, set_ch_errno] using hsec)]
    simp only [if_true]
    refine ⟨_, { ch with ch_errno := K.PBSE_PROTOCOL, ch_errtxt := 0 },
      rfl, ?_, rfl, rfl, ?_, ?_, ?_⟩
    · simp [conn, set_ch_errtxt, set_ch_errno, hpos, hget, List.getElem?_modify_eq]
    · simp [set_ch_errtxt, set_ch_errno, cleared_timeout]
    · intro hy; exact absurd hy hsec
    · intro _
      exact ⟨rfl, by simp [set_ch_errtxt, set_ch_errno, cleared_trace]⟩

/-- C10 as amended, at a concrete input: the record cannot be allocated, the
copy of the message can. -/
theorem PBSD_rdrpy_record_alloc_fails_witness :
    (∀ sock, PBSD_rdrpy_sock Kstd decEOF sock { world0 0 with avail := [false, true] } =
      some (0, Kstd.DIS_SUCCESS,
        { world0 0 with avail := [true], pbs_errno := Kstd.PBSE_SYSTEM })) ∧
    ∃ w1 ch1, PBSD_rdrpy Kstd decEOF 0 { world0 0 with avail := [false, true] } = some (0, w1) ∧
      w1.connection[(0 : Int).toNat]? = some ch1 ∧
      ch1.ch_errno = Kstd.PBSE_PROTOCOL ∧ w1.pbs_errno = Kstd.PBSE_SYSTEM ∧
      w1.pbs_tcp_timeout = 30 ∧
      ([true].head? = some true →
        ch1.ch_errtxt ≠ 0 ∧ w1.heap.get ch1.ch_errtxt = some (Cell.str (c_str "No error")) ∧
        w1.trace = [] ++ (nz 0).map Event.free ++ [Event.strdup ch1.ch_errtxt]) ∧
      ([true].head? ≠ some true →
        ch1.ch_errtxt = 0 ∧ w1.trace = [] ++ (nz 0).map Event.free) :=
  PBSD_rdrpy_record_alloc_fails Kstd decEOF 0 { world0 0 with avail := [false, true] }
    { ch_inuse := true, ch_socket := 3, ch_errno := 0, ch_errtxt := 0 } "No error"
    (by decide) (by decide) (by decide) (by decide) (by decide) (by decide)

/-- C10 fails as stated: when neither the record nor the copy of the message
can be allocated, the entry's diagnostic text is null, not the message for
`DIS_SUCCESS`. -/
theorem PBSD_rdrpy_no_memory_no_diagnostic :
    (PBSD_rdrpy Kstd decEOF 0 (world0 0)).map
        (fun x => (x.1, x.2.connection[(0 : Int).toNat]?)) =
      some (0, some { ch_inuse := true, ch_socket := 3, ch_errno := 15031, ch_errtxt := 0 }) ∧
    ¬ ∃ p w1 ch1, PBSD_rdrpy Kstd decEOF 0 (world0 0) = some (p, w1) ∧
        w1.connection[(0 : Int).toNat]? = some ch1 ∧ ch1.ch_errtxt ≠ 0 := by
  have h0 : (PBSD_rdrpy Kstd decEOF 0 (world0 0)).map
      (fun x => (x.1, x.2.connection[(0 : Int).toNat]?)) =
      some (0, some { ch_inuse := true, ch_socket := 3, ch_errno := 15031,
                      ch_errtxt := 0 }) := by decide
  refine ⟨h0, ?_⟩
  rintro ⟨p, w1, ch1, h, hcn, hno⟩
  rw [h] at h0
  simp only [Option.map, Option.some.injEq, Prod.mk.injEq] at h0
  rw [hcn] at h0
  obtain ⟨-, h3⟩ := h0
  simp only [Option.some.injEq] at h3
  exact hno (by rw [h3])

/-! ## `PBSD_rdrpy`: slots that hold no live session -/

theorem conn_set_ch_inuse (w : World) (c : Int) (b : Bool) :
    conn (set_ch_inuse c b w) c = (conn w c).map (fun ch => { ch with ch_inuse := b }) := by
  unfold conn set_ch_inuse
  by_cases h : 0 ≤ c
  · simp [h, List.getElem?_modify_eq]
  · simp [h]

theorem free_set_ch_inuse (p : Nat) (c : Int) (b : Bool) (w : World) :
    free p (set_ch_inuse c b w) = (free p w).map (set_ch_inuse c b) := by
  unfold free
  by_cases hp : p = 0
  · simp [hp]
  · rcases hg : w.heap.get p with _ | cell
    · simp [hp, set_ch_inuse, hg]
    · simp [hp, set_ch_inuse, hg]

theorem set_ch_errtxt_set_ch_inuse (c : Int) (p : Nat) (b : Bool) (w : World) :
    set_ch_errtxt c p (set_ch_inuse c b w) = set_ch_inuse c b (set_ch_errtxt c p w) := by
  simp only [set_ch_errtxt, set_ch_inuse, List.modify_modify_eq]
  rfl

theorem set_ch_errno_set_ch_inuse (c : Int) (e : Int) (b : Bool) (w : World) :
    set_ch_errno c e (set_ch_inuse c b w) = set_ch_inuse c b (set_ch_errno c e w) := by
  simp only [set_ch_errno, set_ch_inuse, List.modify_modify_eq]
  rfl

theorem malloc_set_ch_inuse (c : Int) (b : Bool) (w : World) :
    malloc (set_ch_inuse c b w) = ((malloc w).1, set_ch_inuse c b (malloc w).2) := by
  obtain ⟨hp, tr, en, tm, cn, av⟩ := w
  unfold malloc set_ch_inuse
  rcases av with _ | ⟨x, rest⟩
  · rfl
  · cases x <;> rfl

theorem strdup_set_ch_inuse (s : String) (c : Int) (b : Bool) (w : World) :
    strdup s (set_ch_inuse c b w) = ((strdup s w).1, set_ch_inuse c b (strdup s w).2) := by
  obtain ⟨hp, tr, en, tm, cn, av⟩ := w
  unfold strdup set_ch_inuse
  rcases av with _ | ⟨x, rest⟩
  · rfl
  · cases x <;> rfl

theorem PBSD_rdrpy_sock_set_ch_inuse (K : Consts) (dec : Decoder) (sock : Int) (c : Int)
    (b : Bool) (w : World) :
    PBSD_rdrpy_sock K dec sock (set_ch_inuse c b w) =
      (PBSD_rdrpy_sock K dec sock w).map
        (fun x => (x.1, x.2.1, set_ch_inuse c b x.2.2)) := by
  unfold PBSD_rdrpy_sock
  rw [malloc_set_ch_inuse]
  by_cases h0 : (malloc w).1 = 0
  · simp [h0, set_ch_inuse]
  · simp only [h0, if_false, memset_reply, DIS_tcp_setup, decode_DIS_replyCmd, DIS_tcp_reset]
    by_cases hlt : (malloc w).2.pbs_tcp_timeout < K.PBS_DIS_TCP_TIMEOUT_LONG
    · have hlt2 : (set_ch_inuse c b (malloc w).2).pbs_tcp_timeout
          < K.PBS_DIS_TCP_TIMEOUT_LONG := hlt
      simp only [hlt, hlt2, if_true]
      by_cases hrc : (dec sock (malloc w).1
          ((malloc w).2.heap.set (malloc w).1 (Cell.reply batch_reply.zero))).1 = 0
      · simp only [set_ch_inuse, hrc, ne_eq, not_true_eq_false, if_false]
        split <;> simp [*]
      · simp only [set_ch_inuse, hrc, ne_eq, not_false_eq_true, if_true, free]
        split <;> simp [*]
        split <;> simp [*]
    · have hlt2 : ¬ (set_ch_inuse c b (malloc w).2).pbs_tcp_timeout
          < K.PBS_DIS_TCP_TIMEOUT_LONG := hlt
      simp only [hlt, hlt2, if_false]
      by_cases hrc : (dec sock (malloc w).1
          ((malloc w).2.heap.set (malloc w).1 (Cell.reply batch_reply.zero))).1 = 0
      · simp only [set_ch_inuse, hrc, ne_eq, not_true_eq_false, if_false]
        split <;> simp [*]
      · simp only [set_ch_inuse, hrc, ne_eq, not_false_eq_true, if_true, free]
        split <;> simp [*]
        split <;> simp [*]

theorem cleared_set_ch_inuse (c : Int) (b : Bool) (e : Nat) (w : World) :
    (set_ch_inuse c b w).cleared c e = set_ch_inuse c b (w.cleared c e) := by
  unfold World.cleared
  by_cases h : e = 0
  · simp [h]
  · simp only [h, if_false]
    exact set_ch_errtxt_set_ch_inuse c 0 b
      { w with heap := w.heap.del e, trace := w.trace ++ [Event.free e] }

theorem PBSD_rdrpy_set_ch_inuse_cleared (K : Consts) (dec : Decoder) (c : Int) (b : Bool)
    (w : World) (ch : connect_handle) (hcn : conn w c = some ch) (h0 : ch.ch_errtxt = 0) :
    PBSD_rdrpy K dec c (set_ch_inuse c b w) =
      (PBSD_rdrpy K dec c w).map (fun x => (x.1, set_ch_inuse c b x.2)) := by
  unfold PBSD_rdrpy
  rw [conn_set_ch_inuse, hcn]
  simp only [Option.map, Option.bind, h0, ne_eq, not_true_eq_false, if_false,
    conn_set_ch_inuse, hcn, PBSD_rdrpy_sock_set_ch_inuse]
  rcases hs : PBSD_rdrpy_sock K dec ch.ch_socket w with _ | ⟨reply, rc, ws⟩
  · rfl
  simp only []
  by_cases hr : reply = 0
  · simp only [hr, if_true, set_ch_errno_set_ch_inuse]
    rcases hm : dis_emsg K rc with _ | msg
    · rfl
    simp only [strdup_set_ch_inuse, set_ch_errtxt_set_ch_inuse]
    by_cases hp : (strdup msg (set_ch_errno c K.PBSE_PROTOCOL ws)).1 = 0
    · simp only [hp, if_true]
      rfl
    · simp only [hp, if_false]
  · simp only [hr, if_false]
    have hh : (set_ch_inuse c b ws).heap = ws.heap := rfl
    rw [hh]
    rcases hg : ws.heap.get reply with _ | cell
    · rfl
    cases cell <;> try rfl
    rename_i r
    simp only [set_ch_errno_set_ch_inuse]
    by_cases hT : r.brp_choice = K.BATCH_REPLY_CHOICE_Text
    · by_cases hz : r.brp_str = 0
      · simp only [hT, hz, if_true, ne_eq, not_true_eq_false, if_false]
        rfl
      · simp only [hT, hz, if_true, ne_eq, not_false_eq_true]
        have hh2 : (set_ch_inuse c b (set_ch_errno c r.brp_code ws)).heap
            = (set_ch_errno c r.brp_code ws).heap := rfl
        rw [hh2]
        rcases hg2 : (set_ch_errno c r.brp_code ws).heap.get r.brp_str with _ | cell2
        · rfl
        cases cell2 <;> try rfl
        rename_i s
        simp only []
        have e : World.mk (set_ch_errno c r.brp_code ws).heap
            (set_ch_inuse c b (set_ch_errno c r.brp_code ws)).trace r.brp_code
            (set_ch_inuse c b (set_ch_errno c r.brp_code ws)).pbs_tcp_timeout
            (set_ch_inuse c b (set_ch_errno c r.brp_code ws)).connection
            (set_ch_inuse c b (set_ch_errno c r.brp_code ws)).avail =
            set_ch_inuse c b (World.mk (set_ch_errno c r.brp_code ws).heap
              (set_ch_errno c r.brp_code ws).trace r.brp_code
              (set_ch_errno c r.brp_code ws).pbs_tcp_timeout
              (set_ch_errno c r.brp_code ws).connection
              (set_ch_errno c r.brp_code ws).avail) := rfl
        rw [e, strdup_set_ch_inuse, set_ch_errtxt_set_ch_inuse]
        by_cases hp : (strdup s (World.mk (set_ch_errno c r.brp_code ws).heap
              (set_ch_errno c r.brp_code ws).trace r.brp_code
              (set_ch_errno c r.brp_code ws).pbs_tcp_timeout
              (set_ch_errno c r.brp_code ws).connection
              (set_ch_errno c r.brp_code ws).avail)).1 = 0
        · simp only [hp, if_true]
          rfl
        · simp only [hp, if_false]
    · simp only [hT, if_false]
      rfl

/-- The call does the same whether the slot is marked live or free. -/
theorem PBSD_rdrpy_ignores_ch_inuse (K : Consts) (dec : Decoder) (c : Int) (b : Bool)
    (w : World) :
    PBSD_rdrpy K dec c (set_ch_inuse c b w) =
      (PBSD_rdrpy K dec c w).map (fun x => (x.1, set_ch_inuse c b x.2)) := by
  rcases hcn : conn w c with _ | ch
  · simp [PBSD_rdrpy, conn_set_ch_inuse, hcn]
  have hcn2 : conn (set_ch_inuse c b w) c = some { ch with ch_inuse := b } := by
    rw [conn_set_ch_inuse, hcn]; rfl
  by_cases he : ch.ch_errtxt ≠ 0 → (w.heap.get ch.ch_errtxt).isSome
  · rw [PBSD_rdrpy_cleared K dec c w ch hcn he,
      PBSD_rdrpy_cleared K dec c (set_ch_inuse c b w) _ hcn2 he, cleared_set_ch_inuse]
    exact PBSD_rdrpy_set_ch_inuse_cleared K dec c b _ _ (conn_cleared w c ch hcn) rfl
  · have h0 : ch.ch_errtxt ≠ 0 := fun h => he (fun hn => absurd h hn)
    have hg : w.heap.get ch.ch_errtxt = none := by
      by_contra hn
      exact he (fun _ => Option.ne_none_iff_isSome.mp hn)
    have hg2 : (set_ch_inuse c b w).heap.get ch.ch_errtxt = none := hg
    unfold PBSD_rdrpy
    rw [hcn, hcn2]
    simp [h0, free, hg, hg2]

/-- C8, as amended: `PBSD_rdrpy` makes no check of the session identifier and
reports no invalid-session error. Whether the table slot it indexes holds a
live session or is free makes no difference to what the call does (same
returned pointer, same final state, the slot's in-use mark aside). For a free
slot it therefore reads the slot's transport handle and runs the read on it,
and when the decode fails it returns no record with `PBSE_PROTOCOL`, as for any
decode failure, and writes the slot's `ch_errno` and `ch_errtxt`. -/
theorem PBSD_rdrpy_free_slot (K : Consts) (dec : Decoder) (c : Int) (w : World)
    (ch : connect_handle) (rest : List Bool) (rc : Int) (h2 : Heap) (msg : String)
    (hc0 : 0 ≤ c) (hc : w.connection[c.toNat]? = some ch) (hfree : ch.ch_inuse = false)
    (he : ch.ch_errtxt ≠ 0 → (w.heap.get ch.ch_errtxt).isSome)
    (hav : w.avail = true :: true :: rest)
    (hdec : dec ch.ch_socket (replyAddr w c ch) (decodeHeap w c ch) = (rc, h2))
    (hrc : rc ≠ 0)
    (hrec : (h2.get (replyAddr w c ch)).isSome)
    (hr0 : 0 ≤ rc) (hmsg : K.dis_emsg[rc.toNat]? = some msg) :
    (∀ b, PBSD_rdrpy K dec c (set_ch_inuse c b w) =
      (PBSD_rdrpy K dec c w).map (fun x => (x.1, set_ch_inuse c b x.2))) ∧
    ∃ w1 ch1, PBSD_rdrpy K dec c w = some (0, w1) ∧ w1.pbs_errno = K.PBSE_PROTOCOL ∧
      Event.DIS_tcp_setup ch.ch_socket ∈ w1.trace ∧
      Event.decode_DIS_replyCmd ch.ch_socket (replyAddr w c ch) ∈ w1.trace ∧
      w1.connection[c.toNat]? = some ch1 ∧ ch1.ch_inuse = false ∧
      ch1.ch_socket = ch.ch_socket ∧ ch1.ch_errno = K.PBSE_PROTOCOL ∧ ch1.ch_errtxt ≠ 0 := by
  refine ⟨fun b => PBSD_rdrpy_ignores_ch_inuse K dec c b w, ?_⟩
  obtain ⟨w1, q, hrun, hq, hcn, -, herr, -, htr⟩ :=
    rdrpy_fail_step K dec c w ch rest rc h2 msg (conn_of w c ch hc0 hc) he hav hdec hrc hrec
      (dis_emsg_of K rc msg hr0 hmsg)
  refine ⟨w1, _, hrun, herr, ?_, ?_, (conn_pos _ _ _ hcn).2, hfree, rfl, rfl, hq⟩
  · rw [htr]; simp
  · rw [htr]; simp

/-- C8 as amended, at a concrete input: slot 1 of the table is free, its stale
handle is socket 7, and the stream on that socket is at end of file. -/
theorem PBSD_rdrpy_free_slot_witness :
    (world2 2).connection[(1 : Int).toNat]? =
      some { ch_inuse := false, ch_socket := 7, ch_errno := 0, ch_errtxt := 0 } ∧
    ((∀ b, PBSD_rdrpy Kstd decEOF 1 (set_ch_inuse 1 b (world2 2)) =
      (PBSD_rdrpy Kstd decEOF 1 (world2 2)).map (fun x => (x.1, set_ch_inuse 1 b x.2))) ∧
    ∃ w1 ch1, PBSD_rdrpy Kstd decEOF 1 (world2 2) = some (0, w1) ∧
      w1.pbs_errno = Kstd.PBSE_PROTOCOL ∧
      Event.DIS_tcp_setup 7 ∈ w1.trace ∧
      Event.decode_DIS_replyCmd 7 1 ∈ w1.trace ∧
      w1.connection[(1 : Int).toNat]? = some ch1 ∧ ch1.ch_inuse = false ∧
      ch1.ch_socket = 7 ∧ ch1.ch_errno = Kstd.PBSE_PROTOCOL ∧ ch1.ch_errtxt ≠ 0) :=
  ⟨by decide,
   PBSD_rdrpy_free_slot Kstd decEOF 1 (world2 2)
    { ch_inuse := false, ch_socket := 7, ch_errno := 0, ch_errtxt := 0 } [] 11
    [(1, Cell.reply batch_reply.zero)] "End of File"
    (by decide) (by decide) (by decide) (by decide) (by decide) (by decide) (by decide)
    (by decide) (by decide) (by decide)⟩

/-- C8 fails as stated: slot 1 of the table is free (its stale handle is socket
7) and the stream on that socket is at end of file. `PBSD_rdrpy(1)` reads the
handle and runs the read on socket 7, returns no record with
`pbs_errno = PBSE_PROTOCOL` (15031, the code of any decode failure, not an
invalid-session error), and writes the slot's `ch_errno` and `ch_errtxt`. -/
theorem PBSD_rdrpy_free_slot_is_read_and_written :
    (world2 2).connection[(1 : Int).toNat]? =
      some { ch_inuse := false, ch_socket := 7, ch_errno := 0, ch_errtxt := 0 } ∧
    (PBSD_rdrpy Kstd decEOF 1 (world2 2)).map
        (fun x => (x.1, x.2.pbs_errno, x.2.trace, x.2.connection[(1 : Int).toNat]?)) =
      some (0, 15031,
        [Event.malloc 1, Event.DIS_tcp_setup 7, Event.decode_DIS_replyCmd 7 1,
         Event.free 1, Event.strdup 1],
        some { ch_inuse := false, ch_socket := 7, ch_errno := 15031, ch_errtxt := 1 }) := by
  decide

/-! ## `PBSD_rdrpy_sock`: the failure path -/

/-- C2 at the failing input: the timeout is 30, below the long timeout 600, and
the stream is at end of file. `PBSD_rdrpy_sock` returns no record and code 11,
and leaves `pbs_tcp_timeout` at 600 instead of restoring 30. -/
theorem PBSD_rdrpy_sock_timeout_not_restored :
    (world0 2).pbs_tcp_timeout = 30 ∧
    (PBSD_rdrpy_sock Kstd decEOF 3 (world0 2)).map
        (fun x => (x.1, x.2.1, x.2.2.pbs_tcp_timeout)) = some (0, 11, 600) ∧
    (PBSD_rdrpy_sock Kstd (decText 0 "ok") 3 (world0 2)).map
        (fun x => (x.1, x.2.1, x.2.2.pbs_tcp_timeout)) = some (1, 0, 30) := by
  decide

/-- C3 at the failing input: the decoder links one select node (block 2) into
the record (block 1) and then fails with code 11. `PBSD_rdrpy_sock` returns no
record and calls `free` on the record only: block 2, reachable from the
partially built record, is still allocated when it returns. -/
theorem PBSD_rdrpy_sock_leaks_attached_node :
    (decSelectTruncated 3 1 (recordHeap [])).2.get 1 =
      some (Cell.reply { batch_reply.zero with brp_choice := 5, brp_select := 2 }) ∧
    (PBSD_rdrpy_sock Kstd decSelectTruncated 3 (world0 2)).map
        (fun x => (x.1, x.2.1, x.2.2.heap, x.2.2.trace)) =
      some (0, 11, [(2, Cell.select { brp_next := 0 })],
        [Event.malloc 1, Event.DIS_tcp_setup 3, Event.decode_DIS_replyCmd 3 1,
         Event.free 1]) := by
  decide

/-! ## `PBSD_FreeReply` on a concrete reply -/

/-- C1 at a concrete input: a Status reply with two status nodes, the first
with two attribute nodes, some strings null; block 10 is not part of the
reply and stays allocated. -/
theorem PBSD_FreeReply_releases_reachable_witness :
    shapeStatus.blocks 1 = [6, 7, 4, 8, 9, 5, 2, 3, 1] ∧
    ∃ w1, PBSD_FreeReply Kstd 5 1 { world0 0 with heap := heapStatus } = some w1 ∧
      Released { world0 0 with heap := heapStatus } w1 [6, 7, 4, 8, 9, 5, 2, 3, 1] :=
  ⟨by decide,
   PBSD_FreeReply_releases_reachable Kstd { world0 0 with heap := heapStatus } 1
    shapeStatus 5 (by decide)
    (by simp only [Shape.holds, shapeStatus, statChain, attrChain]; decide)
    (by decide) (by decide)⟩

/-! ## Diagnostic accounting across calls -/

theorem liveDiag_append (t es : List Event) :
    liveDiag (t ++ es) = es.foldl liveStep (liveDiag t) := by
  simp [liveDiag, List.foldl_append]

theorem canAlloc_iff (w : World) : w.canAlloc ↔ ∃ rest, w.avail = true :: rest := by
  unfold World.canAlloc
  rcases hav : w.avail with _ | ⟨b, rest⟩
  · simp
  · cases b <;> simp

theorem liveDiag_sock_fail (t : List Event) (p : Nat) (sock : Int) (ht : liveDiag t = []) :
    liveDiag (t ++ [Event.malloc p, Event.DIS_tcp_setup sock,
      Event.decode_DIS_replyCmd sock p, Event.free p]) = [] := by
  simp [liveDiag_append, ht, liveStep]

theorem liveDiag_sock_ok (t : List Event) (p : Nat) (sock : Int) (ht : liveDiag t = []) :
    liveDiag (t ++ [Event.malloc p, Event.DIS_tcp_setup sock,
      Event.decode_DIS_replyCmd sock p, Event.DIS_tcp_reset sock]) = [] := by
  simp [liveDiag_append, ht, liveStep]

theorem PBSD_rdrpy_sock_inv (K : Consts) (dec : Decoder) (sock : Int) (w ws : World)
    (p : Nat) (rc : Int) (h : PBSD_rdrpy_sock K dec sock w = some (p, rc, ws)) :
    ws.connection = w.connection ∧ (liveDiag w.trace = [] → liveDiag ws.trace = []) ∧
    (p ≠ 0 → ∃ r, ws.heap.get p = some (Cell.reply r)) := by
  by_cases hca : w.canAlloc
  · obtain ⟨rest, hav⟩ := (canAlloc_iff w).mp hca
    rcases hd : dec sock w.heap.fresh (recordHeap w.heap) with ⟨rc1, h2⟩
    by_cases hrc : rc1 = 0
    · subst hrc
      rcases hg : h2.get w.heap.fresh with _ | cell
      · exfalso
        unfold PBSD_rdrpy_sock at h
        rw [malloc_ok w rest hav] at h
        simp only [if_neg w.heap.fresh_ne_zero, memset_reply, DIS_tcp_setup,
          decode_DIS_replyCmd, Heap.set_fresh_memset, DIS_tcp_reset] at h
        by_cases hlt : w.pbs_tcp_timeout < K.PBS_DIS_TCP_TIMEOUT_LONG
        · simp [hlt, hd, hg] at h
        · simp [hlt, hd, hg] at h
      · by_cases hr : ∃ r, cell = Cell.reply r
        · obtain ⟨r, rfl⟩ := hr
          rw [PBSD_rdrpy_sock_ok K dec sock w rest h2 r hav hd hg] at h
          simp only [Option.some.injEq, Prod.mk.injEq] at h
          obtain ⟨rfl, rfl, rfl⟩ := h
          exact ⟨rfl, fun ht => liveDiag_sock_ok _ _ _ ht, fun _ => ⟨r, hg⟩⟩
        · exfalso
          unfold PBSD_rdrpy_sock at h
          rw [malloc_ok w rest hav] at h
          simp only [if_neg w.heap.fresh_ne_zero, memset_reply, DIS_tcp_setup,
            decode_DIS_replyCmd, Heap.set_fresh_memset, DIS_tcp_reset] at h
          by_cases hlt : w.pbs_tcp_timeout < K.PBS_DIS_TCP_TIMEOUT_LONG
          · cases cell <;> simp [hlt, hd, hg] at h hr
          · cases cell <;> simp [hlt, hd, hg] at h hr
    · rcases hg : h2.get w.heap.fresh with _ | cell
      · exfalso
        unfold PBSD_rdrpy_sock at h
        rw [malloc_ok w rest hav] at h
        simp only [if_neg w.heap.fresh_ne_zero, memset_reply, DIS_tcp_setup,
          decode_DIS_replyCmd, Heap.set_fresh_memset, DIS_tcp_reset] at h
        by_cases hlt : w.pbs_tcp_timeout < K.PBS_DIS_TCP_TIMEOUT_LONG
        · simp [hlt, hd, hg, hrc, free, Heap.fresh_ne_zero] at h
        · simp [hlt, hd, hg, hrc, free, Heap.fresh_ne_zero] at h
      · rw [PBSD_rdrpy_sock_fail K dec sock w rest rc1 h2 hav hd hrc (by simp [hg])] at h
        simp only [Option.some.injEq, Prod.mk.injEq] at h
        obtain ⟨rfl, rfl, rfl⟩ := h
        exact ⟨rfl, fun ht => liveDiag_sock_fail _ _ _ ht, fun hp => absurd rfl hp⟩
  · rw [PBSD_rdrpy_sock_nomem K dec sock w hca] at h
    simp only [Option.some.injEq, Prod.mk.injEq] at h
    obtain ⟨rfl, rfl, rfl⟩ := h
    simp

theorem liveDiag_cleared (w : World) (c : Int) (e : Nat) (hl : liveDiag w.trace = nz e) :
    liveDiag (w.cleared c e).trace = [] := by
  rw [cleared_trace, liveDiag_append, hl]
  by_cases h0 : e = 0
  · simp [nz, h0]
  · simp [nz, h0, liveStep]

theorem PBSD_rdrpy_live (K : Consts) (dec : Decoder) (c : Int) (w w1 : World) (p : Nat)
    (ch : connect_handle) (h : PBSD_rdrpy K dec c w = some (p, w1))
    (hc : conn w c = some ch) (hl : liveDiag w.trace = nz ch.ch_errtxt) :
    ∃ ch1, conn w1 c = some ch1 ∧ liveDiag w1.trace = nz ch1.ch_errtxt ∧
      (ch1.ch_errtxt ≠ 0 → ∃ s, w1.heap.get ch1.ch_errtxt = some (Cell.str s)) := by
  have he : ch.ch_errtxt ≠ 0 → (w.heap.get ch.ch_errtxt).isSome := by
    intro h0
    by_contra hn
    have hnone : w.heap.get ch.ch_errtxt = none := by
      simpa using hn
    simp [PBSD_rdrpy, hc, h0, free, hnone] at h
  rw [PBSD_rdrpy_cleared K dec c w ch hc he] at h
  have h1 := conn_cleared w c ch hc
  have hlc := liveDiag_cleared w c ch.ch_errtxt hl
  obtain ⟨hpos, hget⟩ := conn_pos _ _ _ h1
  unfold PBSD_rdrpy at h
  rw [h1] at h
  simp only [Option.bind, ne_eq, not_true_eq_false, if_false, h1] at h
  rcases hs : PBSD_rdrpy_sock K dec ch.ch_socket (w.cleared c ch.ch_errtxt) with
    _ | ⟨reply, rc, ws⟩
  · simp [hs] at h
  obtain ⟨hwc, hwl, hwr⟩ := PBSD_rdrpy_sock_inv K dec _ _ ws reply rc hs
  have hwl := hwl hlc
  simp only [hs] at h
  by_cases hr0 : reply = 0
  · simp only [hr0, if_true] at h
    rcases hm : dis_emsg K rc with _ | msg
    · simp [hm] at h
    simp only [hm] at h
    by_cases hca : (set_ch_errno c K.PBSE_PROTOCOL ws).canAlloc
    · obtain ⟨rest, hav⟩ := (canAlloc_iff _).mp hca
      rw [strdup_ok msg _ rest hav] at h
      simp only [Heap.fresh_ne_zero, if_false, Option.some.injEq, Prod.mk.injEq] at h
      obtain ⟨-, rfl⟩ := h
      refine ⟨{ ch_inuse := ch.ch_inuse, ch_socket := ch.ch_socket, ch_errno := K.PBSE_PROTOCOL,
                ch_errtxt := (set_ch_errno c K.PBSE_PROTOCOL ws).heap.fresh }, ?_, ?_, ?_⟩
      · simp [conn, set_ch_errtxt, set_ch_errno, hpos, hget, hwc, List.getElem?_modify_eq]
      · simp [set_ch_errtxt, set_ch_errno, liveDiag_append, hwl, liveStep, nz,
          Heap.fresh_ne_zero]
      · intro _
        exact ⟨c_str msg, by simp [set_ch_errtxt, set_ch_errno, Heap.get_set]⟩
    · rw [strdup_fail msg _ hca] at h
      simp only [if_true, Option.some.injEq, Prod.mk.injEq] at h
      obtain ⟨-, rfl⟩ := h
      refine ⟨{ ch_inuse := ch.ch_inuse, ch_socket := ch.ch_socket, ch_errno := K.PBSE_PROTOCOL, ch_errtxt := 0 },
        ?_, ?_, ?_⟩
      · simp [conn, set_ch_errtxt, set_ch_errno, hpos, hget, hwc, List.getElem?_modify_eq]
      · simpa [set_ch_errtxt, set_ch_errno, nz] using hwl
      · intro hne; exact absurd rfl hne
  · obtain ⟨r, hrg⟩ := hwr hr0
    simp only [hr0, if_false, hrg] at h
    by_cases hT : r.brp_choice = K.BATCH_REPLY_CHOICE_Text ∧ r.brp_str ≠ 0
    · obtain ⟨hT1, hT2⟩ := hT
      simp only [hT1, if_true, hT2, ne_eq, not_false_eq_true] at h
      generalize hwd : World.mk (set_ch_errno c r.brp_code ws).heap
          (set_ch_errno c r.brp_code ws).trace r.brp_code
          (set_ch_errno c r.brp_code ws).pbs_tcp_timeout
          (set_ch_errno c r.brp_code ws).connection
          (set_ch_errno c r.brp_code ws).avail = wd at h
      have hwdt : wd.trace = ws.trace := by rw [← hwd]; rfl
      have hwdc : wd.connection = (set_ch_errno c r.brp_code ws).connection := by
        rw [← hwd]
      rcases hg : (set_ch_errno c r.brp_code ws).heap.get r.brp_str with _ | cell
      · simp [hg] at h
      by_cases hstr : ∃ s, cell = Cell.str s
      · obtain ⟨s, rfl⟩ := hstr
        simp only [hg] at h
        by_cases hca : wd.canAlloc
        · obtain ⟨rest, hav⟩ := (canAlloc_iff _).mp hca
          rw [strdup_ok s _ rest hav] at h
          simp only [Heap.fresh_ne_zero, if_false, Option.some.injEq, Prod.mk.injEq] at h
          obtain ⟨-, rfl⟩ := h
          refine ⟨{ ch_inuse := ch.ch_inuse, ch_socket := ch.ch_socket, ch_errno := r.brp_code,
                    ch_errtxt := wd.heap.fresh }, ?_, ?_, ?_⟩
          · simp [conn, set_ch_errtxt, set_ch_errno, hpos, hget, hwc, hwdc,
              List.getElem?_modify_eq]
          · simp [set_ch_errtxt, liveDiag_append, hwl, hwdt, liveStep, nz,
              Heap.fresh_ne_zero]
          · intro _
            exact ⟨c_str s, by simp [set_ch_errtxt, Heap.get_set]⟩
        · rw [strdup_fail s _ hca] at h
          simp only [if_true, Option.some.injEq, Prod.mk.injEq] at h
          obtain ⟨-, rfl⟩ := h
          refine ⟨{ ch_inuse := ch.ch_inuse, ch_socket := ch.ch_socket, ch_errno := r.brp_code, ch_errtxt := 0 },
            ?_, ?_, ?_⟩
          · simp [conn, set_ch_errtxt, set_ch_errno, hpos, hget, hwc, hwdc,
              List.getElem?_modify_eq]
          · simpa [set_ch_errtxt, hwdt, nz] using hwl
          · intro hne; exact absurd rfl hne
      · exfalso
        cases cell <;> simp [hg] at h hstr
    · have hres : some (reply, ({ set_ch_errno c r.brp_code ws with
          pbs_errno := r.brp_code } : World)) = some (p, w1) := by
        by_cases hT1 : r.brp_choice = K.BATCH_REPLY_CHOICE_Text
        · have hT2 : r.brp_str = 0 := by
            by_contra hne; exact hT ⟨hT1, hne⟩
          simpa [hT1, hT2] using h
        · simpa [hT1] using h
      simp only [Option.some.injEq, Prod.mk.injEq] at hres
      obtain ⟨-, rfl⟩ := hres
      refine ⟨{ ch_inuse := ch.ch_inuse, ch_socket := ch.ch_socket, ch_errno := r.brp_code, ch_errtxt := 0 },
        ?_, ?_, ?_⟩
      · simp [conn, set_ch_errno, hpos, hget, hwc, List.getElem?_modify_eq]
      · simpa [set_ch_errno, nz] using hwl
      · intro hne; exact absurd rfl hne


theorem givesDiagnostic_decEOF : givesDiagnostic Kstd decEOF := by
  intro sock h
  left
  refine ⟨by simp [decEOF], by simp [decEOF], by simp [decEOF, Kstd], ?_⟩
  simp [decEOF, recordHeap, Heap.get]

theorem givesDiagnostic_decText (code : Int) (msg : String) :
    givesDiagnostic Kstd (decText code msg) := by
  intro sock h
  right
  have hne : (recordHeap h).fresh ≠ h.fresh := by
    have := (recordHeap h).lt_fresh (h.fresh, Cell.reply batch_reply.zero)
      (by simp [recordHeap])
    simp only at this
    omega
  refine ⟨rfl, batch_reply.mk code 7 msg.length (recordHeap h).fresh 0 0 0 0 0 0, msg,
    ?_, rfl, Heap.fresh_ne_zero _, ?_⟩
  · simp only [decText, Heap.get_set, if_true]
    rfl
  · simp only [decText, Heap.get_set, hne, if_false, if_true]

/-- A call whose decoder behaviour gives a diagnostic, with memory for the
record and the copy, completes and stores an allocated string. -/
theorem rdrpy_diag_step (K : Consts) (dec : Decoder) (c : Int) (w : World)
    (ch : connect_handle) (rest : List Bool)
    (hc : conn w c = some ch)
    (he : ch.ch_errtxt ≠ 0 → (w.heap.get ch.ch_errtxt).isSome)
    (hav : w.avail = true :: true :: rest) (hd : givesDiagnostic K dec) :
    ∃ p w1 ch1, PBSD_rdrpy K dec c w = some (p, w1) ∧ conn w1 c = some ch1 ∧
      ch1.ch_errtxt ≠ 0 ∧ (∃ s, w1.heap.get ch1.ch_errtxt = some (Cell.str s)) ∧
      w1.avail = rest := by
  rcases hout : dec ch.ch_socket (replyAddr w c ch) (decodeHeap w c ch) with ⟨rc, h2⟩
  have hd1 := hd ch.ch_socket (w.cleared c ch.ch_errtxt).heap
  have hout2 : dec ch.ch_socket (w.cleared c ch.ch_errtxt).heap.fresh
      (recordHeap (w.cleared c ch.ch_errtxt).heap) = (rc, h2) := hout
  rw [hout2] at hd1
  rcases hd1 with ⟨hrc, hr0, hlt, hrec⟩ | ⟨hrc, r, s, hrec, hT1, hT2, hsg⟩
  · simp only at hrc hr0 hlt hrec
    rcases hm : K.dis_emsg[rc.toNat]? with _ | msg
    · have := List.getElem?_eq_none_iff.mp hm
      omega
    obtain ⟨w1, q, hrun, hq, hcn, hheap, -, hav1, -⟩ :=
      rdrpy_fail_step K dec c w ch rest rc h2 msg hc he hav hout hrc hrec
        (dis_emsg_of K rc msg hr0 hm)
    exact ⟨0, w1, _, hrun, hcn, hq, ⟨_, hheap⟩, hav1⟩
  · simp only at hrc hrec hsg
    subst hrc
    obtain ⟨w1, q, hrun, hq, -, hcn, hheap, -, -, -, hav1⟩ :=
      rdrpy_text_step K dec c w ch rest h2 r s hc he hav hout hrec hT1 hT2 hsg
    exact ⟨_, w1, _, hrun, hcn, hq, ⟨_, hheap⟩, hav1⟩

/-- C7: across any number of consecutive `PBSD_rdrpy` calls on one session,
each with a decoder behaviour that gives a Text reply or a decode error and
with memory for the record and the copy, every call completes, and after every
call the diagnostic strings handed out by `strdup` and not released since are
exactly one, the one stored in the entry, which is an allocated string. The
diagnostic stored before a call has been released by then; none of an earlier
call is still live. -/
theorem PBSD_rdrpy_calls_one_live_diagnostic (K : Consts) (c : Int) (decs : List Decoder) :
    ∀ (w : World) (ch : connect_handle) (rest : List Bool),
      0 ≤ c → w.connection[c.toNat]? = some ch →
      (ch.ch_errtxt ≠ 0 → (w.heap.get ch.ch_errtxt).isSome) →
      liveDiag w.trace = nz ch.ch_errtxt →
      (∀ dec ∈ decs, givesDiagnostic K dec) →
      w.avail = List.replicate (2 * decs.length) true ++ rest →
      ∃ ws, PBSD_rdrpy_calls K c decs w = some ws ∧ ws.length = decs.length ∧
        ∀ w1 ∈ ws, ∃ ch1, w1.connection[c.toNat]? = some ch1 ∧ ch1.ch_errtxt ≠ 0 ∧
          liveDiag w1.trace = [ch1.ch_errtxt] ∧
          ∃ s, w1.heap.get ch1.ch_errtxt = some (Cell.str s) := by
  induction decs with
  | nil =>
    intro w ch rest _ _ _ _ _ _
    exact ⟨[], rfl, rfl, by simp⟩
  | cons dec decs ih =>
    intro w ch rest hc0 hc he hl hd hav
    have hcn := conn_of w c ch hc0 hc
    have hav2 : w.avail = true :: true :: (List.replicate (2 * decs.length) true ++ rest) := by
      rw [hav]
      simp [Nat.mul_succ, List.replicate_succ]
    obtain ⟨p, w1, ch1, hrun, hcn1, hne1, ⟨s1, hs1⟩, hav1⟩ :=
      rdrpy_diag_step K dec c w ch _ hcn he hav2 (hd dec (List.mem_cons_self _ _))
    obtain ⟨ch1b, hcn1b, hl1, -⟩ := PBSD_rdrpy_live K dec c w w1 p ch hrun hcn hl
    have hch : ch1b = ch1 := by
      rw [hcn1] at hcn1b
      exact (Option.some.inj hcn1b).symm
    subst hch
    obtain ⟨ws, hruns, hlen, hall⟩ := ih w1 ch1b rest hc0 (conn_pos _ _ _ hcn1).2
      (fun _ => by simp [hs1]) hl1 (fun d hdm => hd d (List.mem_cons_of_mem _ hdm)) hav1
    refine ⟨w1 :: ws, ?_, by simp [hlen], ?_⟩
    · simp [PBSD_rdrpy_calls, hrun, hruns]
    · intro v hv
      rcases List.mem_cons.mp hv with rfl | hv
      · refine ⟨ch1b, (conn_pos _ _ _ hcn1).2, hne1, ?_, s1, hs1⟩
        rw [hl1]; simp [nz, hne1]
      · exact hall v hv

/-- C7 at a concrete input: three calls on one session, a Text reply, an end of
file, another Text reply; the records are not released in between. The
diagnostic is block 3, then block 3 again (released and handed out anew), then
block 5. -/
theorem PBSD_rdrpy_calls_one_live_diagnostic_witness :
    (PBSD_rdrpy_calls Kstd 0
        [decText 15001 "Unauthorized Request", decEOF, decText 0 "ok"] (world0 6)).map
      (fun ws => ws.map (fun v => (v.connection, liveDiag v.trace))) =
      some [([{ ch_inuse := true, ch_socket := 3, ch_errno := 15001, ch_errtxt := 3 }], [3]),
            ([{ ch_inuse := true, ch_socket := 3, ch_errno := 15031, ch_errtxt := 3 }], [3]),
            ([{ ch_inuse := true, ch_socket := 3, ch_errno := 0, ch_errtxt := 5 }], [5])] ∧
    ∃ ws, PBSD_rdrpy_calls Kstd 0
        [decText 15001 "Unauthorized Request", decEOF, decText 0 "ok"] (world0 6) = some ws ∧
      ws.length = [decText 15001 "Unauthorized Request", decEOF, decText 0 "ok"].length ∧
      ∀ w1 ∈ ws, ∃ ch1, w1.connection[(0 : Int).toNat]? = some ch1 ∧ ch1.ch_errtxt ≠ 0 ∧
        liveDiag w1.trace = [ch1.ch_errtxt] ∧
        ∃ s, w1.heap.get ch1.ch_errtxt = some (Cell.str s) :=
  ⟨by decide,
   PBSD_rdrpy_calls_one_live_diagnostic Kstd 0
    [decText 15001 "Unauthorized Request", decEOF, decText 0 "ok"] (world0 6)
    { ch_inuse := true, ch_socket := 3, ch_errno := 0, ch_errtxt := 0 } []
    (by decide) (by decide) (by decide) (by decide)
    (by
      intro dec hdec
      simp only [List.mem_cons, List.mem_singleton, List.not_mem_nil, or_false] at hdec
      rcases hdec with rfl | rfl | rfl
      · exact givesDiagnostic_decText _ _
      · exact givesDiagnostic_decEOF
      · exact givesDiagnostic_decText _ _)
    (by decide)⟩

end PBS
